import Mathlib

/-!
Verification of the audio-mixer core (assignment-client/src/audio/AudioMixer.cpp).

The per-listener spatial mixing path (`AudioMixer::addBufferToMixForListeningNodeWithBuffer`,
`AudioMixer::prepareMixForListeningNode`) is embedded shallowly: float arithmetic is
idealized over the reals, 16-bit PCM samples are integers, and the C float-to-integer
conversions are modelled by truncation toward zero.  The frame-scheduler throttle logic
of `AudioMixer::run` is purely rational arithmetic and is embedded over the rationals.
-/

namespace AudioMixer

/-! ### Vectors and quaternions (glm) -/

/-- A 3-component float vector (glm::vec3), idealized over the reals. -/
structure Vec3 where
  x : ℝ
  y : ℝ
  z : ℝ

noncomputable def Vec3.sub (a b : Vec3) : Vec3 := ⟨a.x - b.x, a.y - b.y, a.z - b.z⟩

noncomputable def Vec3.add (a b : Vec3) : Vec3 := ⟨a.x + b.x, a.y + b.y, a.z + b.z⟩

noncomputable def Vec3.smul (c : ℝ) (v : Vec3) : Vec3 := ⟨c * v.x, c * v.y, c * v.z⟩

/-- glm::dot for vec3. -/
noncomputable def Vec3.dot (a b : Vec3) : ℝ := a.x * b.x + a.y * b.y + a.z * b.z

/-- glm::cross for vec3. -/
noncomputable def Vec3.cross (a b : Vec3) : Vec3 :=
  ⟨a.y * b.z - a.z * b.y, a.z * b.x - a.x * b.z, a.x * b.y - a.y * b.x⟩

/-- glm::length: the Euclidean norm. -/
noncomputable def Vec3.length (v : Vec3) : ℝ := Real.sqrt (Vec3.dot v v)

/-- glm::normalize: scale by the reciprocal of the length. -/
noncomputable def Vec3.normalize (v : Vec3) : Vec3 := Vec3.smul (1 / Vec3.length v) v

/-- A quaternion (glm::quat). -/
structure Quat where
  w : ℝ
  x : ℝ
  y : ℝ
  z : ℝ

/-- glm::inverse of a quaternion: the conjugate divided by the squared norm. -/
noncomputable def Quat.inv (q : Quat) : Quat :=
  let n := q.w * q.w + q.x * q.x + q.y * q.y + q.z * q.z
  ⟨q.w / n, -q.x / n, -q.y / n, -q.z / n⟩

/-- Rotation of a vector by a quaternion (glm operator*):
v + 2 cross(q.xyz, cross(q.xyz, v) + q.w v). -/
noncomputable def Quat.rot (q : Quat) (v : Vec3) : Vec3 :=
  let qv : Vec3 := ⟨q.x, q.y, q.z⟩
  Vec3.add v (Vec3.smul 2 (Vec3.cross qv (Vec3.add (Vec3.cross qv v) (Vec3.smul q.w v))))

/-- The identity quaternion. -/
noncomputable def Quat.identity : Quat := ⟨1, 0, 0, 0⟩

/-- glm::angle(x, y) = acos(clamp(dot(x, y), -1, 1)); Real.arccos clamps its
argument to [-1, 1] in exactly the same way. -/
noncomputable def glmAngle (a b : Vec3) : ℝ := Real.arccos (Vec3.dot a b)

/-- glm::orientedAngle(x, y, ref): the angle, negated when
dot(ref, cross(x, y)) is negative. -/
noncomputable def glmOrientedAngle (a b ref : Vec3) : ℝ :=
  if Vec3.dot ref (Vec3.cross a b) < 0 then -(glmAngle a b) else glmAngle a b

/-- glm::clamp on integers: min(max(v, lo), hi). -/
def glmClamp (v lo hi : ℤ) : ℤ := min (max v lo) hi

/-! ### Constants

Constants defined in AudioMixer.cpp itself carry their source values; constants that
live in headers outside this translation unit (AudioRingBuffer.h, SharedUtil.h) are
fixed by the frame-size/sample-format contract of the specification. -/

/-- NETWORK_BUFFER_LENGTH_SAMPLES_STEREO.  Modelled from the spec:
FRAME_SAMPLES_STEREO = 480 interleaved stereo samples per frame. -/
def NETWORK_BUFFER_LENGTH_SAMPLES_STEREO : ℕ := 480

/-- MIN_SAMPLE_VALUE.  Modelled from the spec: the smallest signed 16-bit sample. -/
def MIN_SAMPLE_VALUE : ℤ := -32768

/-- MAX_SAMPLE_VALUE.  Modelled from the spec: the largest signed 16-bit sample. -/
def MAX_SAMPLE_VALUE : ℤ := 32767

/-- EPSILON.  Modelled from the spec: the small positive lower clamp for
source-to-listener distances (SharedUtil.h has 0.000001f). -/
noncomputable def EPSILON : ℝ := 1 / 1000000

/-- SAMPLE_PHASE_DELAY_AT_90.  Modelled from the spec: the integer number of mono
samples of ear-to-ear propagation at 90 degrees, "typically 20". -/
def SAMPLE_PHASE_DELAY_AT_90 : ℕ := 20

/-- const float LOUDNESS_TO_DISTANCE_RATIO = 0.00001f (AudioMixer.cpp line 57),
as a real number for the mixing path. -/
noncomputable def loudnessToDistanceRatioR : ℝ := 0.00001

/-- PI_OVER_TWO (SharedUtil.h): a quarter turn. -/
noncomputable def PI_OVER_TWO : ℝ := Real.pi / 2

/-- MAX_OFF_AXIS_ATTENUATION (line 150). -/
noncomputable def MAX_OFF_AXIS_ATTENUATION : ℝ := 0.2

/-- OFF_AXIS_ATTENUATION_FORMULA_STEP = (1 - MAX_OFF_AXIS_ATTENUATION) / 2 (line 151). -/
noncomputable def OFF_AXIS_ATTENUATION_FORMULA_STEP : ℝ := (1 - MAX_OFF_AXIS_ATTENUATION) / 2

/-- GEOMETRIC_AMPLITUDE_SCALAR (line 163). -/
noncomputable def GEOMETRIC_AMPLITUDE_SCALAR : ℝ := 0.3

/-- DISTANCE_SCALE (line 162). -/
noncomputable def DISTANCE_SCALE : ℝ := 2.5

/-- DISTANCE_LOG_BASE (line 164). -/
noncomputable def DISTANCE_LOG_BASE : ℝ := 2.5

/-- DISTANCE_SCALE_LOG = logf(DISTANCE_SCALE) / logf(DISTANCE_LOG_BASE) (line 165). -/
noncomputable def DISTANCE_SCALE_LOG : ℝ := Real.log DISTANCE_SCALE / Real.log DISTANCE_LOG_BASE

/-- PHASE_AMPLITUDE_RATIO_AT_90 (line 184). -/
noncomputable def PHASE_AMPLITUDE_RATIO_AT_90 : ℝ := 0.5

/-! ### Truncation: the C float-to-integer conversion -/

/-- C truncation of a float toward zero when converting to an integer type
(the int16_t assignments at lines 215-216, 220-221 and the (int) casts at
lines 339-351 stay within the signed range under the attenuation preconditions
of the claims, so no wrapping is modelled). -/
noncomputable def rtrunc (x : ℝ) : ℤ := if 0 ≤ x then ⌊x⌋ else ⌈x⌉

/-- The MMX _mm_adds_pi16 saturating signed 16-bit add (PADDSW): the true sum,
saturated to the signed 16-bit range. -/
def adds_pi16 (a b : ℤ) : ℤ := glmClamp (a + b) MIN_SAMPLE_VALUE MAX_SAMPLE_VALUE

/-- A single-point update of the (function-modelled) _clientSamples array. -/
def upd (f : ℕ → ℤ) (i : ℕ) (v : ℤ) : ℕ → ℤ := fun j => if j = i then v else f j

/-! ### Buffers

PositionalAudioRingBuffer / AvatarAudioRingBuffer / InjectedAudioRingBuffer seen
through the accessors AudioMixer.cpp calls.  Pointer identity of C++ buffers is
modelled by the `bufId` field; the underlying circular sample array is
`samples : ℕ → ℤ` of logical size `sampleCapacity`, with the read pointer
`getNextOutput()` at offset `nextOutputPos` from `getBuffer()`. -/

structure PABuffer where
  bufId : ℕ
  position : Vec3
  orientation : Quat
  nextOutputTrailingLoudness : ℝ
  /-- the listener unattenuated zone attached to this buffer, as corner and
  dimensions of an axis-aligned box (AABox); `none` when the pointer is null. -/
  listenerUnattenuatedZone : Option (Vec3 × Vec3)
  /-- getType() == PositionalAudioRingBuffer::Injector -/
  isInjector : Bool
  radius : ℝ
  attenuationRatio : ℝ
  isStereo : Bool
  shouldLoopback : Bool
  willBeAddedToMix : Bool
  samples : ℕ → ℤ
  sampleCapacity : ℕ
  nextOutputPos : ℕ

/-- AABox::contains: componentwise corner ≤ p ≤ corner + dimensions.
Modelled from the spec: axis-aligned box membership. -/
def aaboxContains (box : Vec3 × Vec3) (p : Vec3) : Prop :=
  box.1.x ≤ p.x ∧ p.x ≤ box.1.x + box.2.x ∧
  box.1.y ≤ p.y ∧ p.y ≤ box.1.y + box.2.y ∧
  box.1.z ≤ p.z ∧ p.z ≤ box.1.z + box.2.z

noncomputable instance (box : Vec3 × Vec3) (p : Vec3) : Decidable (aaboxContains box p) := by
  unfold aaboxContains; infer_instance

/-- nextOutputStart[i]: reading at offset i from the buffer's next-output pointer. -/
def nextOut (b : PABuffer) (i : ℕ) : ℤ := b.samples (b.nextOutputPos + i)

/-! ### The spatialization parameters (lines 91-193) -/

/-- The local mutable state computed by lines 91-193 of
addBufferToMixForListeningNodeWithBuffer before any accumulation. -/
structure MixParams where
  bearingRelativeAngleToSource : ℝ
  attenuationCoefficient : ℝ
  numSamplesDelay : ℕ
  weakChannelAmplitudeRatio : ℝ
  /-- the value of shouldAttenuate after the zone check of lines 116-118 -/
  shouldAttenuate : Bool

/-- The off-axis attenuation coefficient of lines 150-154, as a function of
the angle of delivery. -/
noncomputable def offAxisCoefficient (angleOfDelivery : ℝ) : ℝ :=
  MAX_OFF_AXIS_ATTENUATION +
    (OFF_AXIS_ATTENUATION_FORMULA_STEP * (angleOfDelivery / PI_OVER_TWO))

/-- The angle of delivery of lines 145-148: the angle between (0,0,-1) and
the normalized source-to-listener relative position rotated into the source's frame. -/
noncomputable def angleOfDelivery (bufferToAdd listeningNodeBuffer : PABuffer) : ℝ :=
  let relativePosition := Vec3.sub bufferToAdd.position listeningNodeBuffer.position
  let rotatedListenerPosition := Quat.rot (Quat.inv bufferToAdd.orientation) relativePosition
  glmAngle ⟨0, 0, -1⟩ (Vec3.normalize rotatedListenerPosition)

/-- The pre-clamp distance coefficient of lines 168-170. -/
noncomputable def distanceCoefficientRaw (distanceSquareToSource : ℝ) : ℝ :=
  GEOMETRIC_AMPLITUDE_SCALAR ^
    (DISTANCE_SCALE_LOG +
      (0.5 * Real.log distanceSquareToSource / Real.log DISTANCE_LOG_BASE) - 1)

/-- The bearing-relative angle to source of lines 160, 176-182: the oriented angle
about the y-axis between (0,0,-1) and the relative position rotated into the
listener's frame and projected onto the XZ plane. -/
noncomputable def bearingAngle (bufferToAdd listeningNodeBuffer : PABuffer) : ℝ :=
  let relativePosition := Vec3.sub bufferToAdd.position listeningNodeBuffer.position
  let inverseOrientation := Quat.inv listeningNodeBuffer.orientation
  let rotatedSourcePosition := Quat.rot inverseOrientation relativePosition
  let projected : Vec3 := ⟨rotatedSourcePosition.x, 0, rotatedSourcePosition.z⟩
  glmOrientedAngle ⟨0, 0, -1⟩ (Vec3.normalize projected) ⟨0, 1, 0⟩

/-- Lines 91-193 of addBufferToMixForListeningNodeWithBuffer: computes the
bearing, attenuation coefficient, sample delay, weak-channel ratio and the final
shouldAttenuate flag.  `none` is the early return of line 111 (the audibility gate). -/
noncomputable def mixParams (bufferToAdd listeningNodeBuffer : PABuffer)
    (minAudibilityThreshold : ℝ) : Option MixParams :=
  -- line 96: pointer comparison of the two buffers
  let shouldAttenuate := bufferToAdd.bufId ≠ listeningNodeBuffer.bufId
  if shouldAttenuate then
    let relativePosition := Vec3.sub bufferToAdd.position listeningNodeBuffer.position
    let distanceBetween0 := Vec3.length relativePosition
    -- lines 104-106: clamp the distance below by EPSILON
    let distanceBetween := if distanceBetween0 < EPSILON then EPSILON else distanceBetween0
    -- lines 108-112: the audibility gate
    if bufferToAdd.nextOutputTrailingLoudness / distanceBetween ≤ minAudibilityThreshold then
      none
    else
      -- lines 116-118: listener unattenuated zone check
      let shouldAttenuate2 : Bool :=
        match bufferToAdd.listenerUnattenuatedZone with
        | some zone => ! decide (aaboxContains zone listeningNodeBuffer.position)
        | none => true
      if shouldAttenuate2 then
        -- lines 121-191
        let distanceSquareToSource := Vec3.dot relativePosition relativePosition
        -- lines 124-130: injector radius and attenuation ratio
        let radius : ℝ := if bufferToAdd.isInjector then bufferToAdd.radius else 0
        let attenuationCoefficient1 : ℝ :=
          if bufferToAdd.isInjector then 1 * bufferToAdd.attenuationRatio else 1
        if radius = 0 ∨ distanceSquareToSource > radius * radius then
          -- lines 135-158: spherical-boundary adjustment or off-axis attenuation
          let distanceSquareToSource2 :=
            if radius > 0 then distanceSquareToSource - radius * radius
            else distanceSquareToSource
          let attenuationCoefficient2 :=
            if radius > 0 then attenuationCoefficient1
            else attenuationCoefficient1 *
                   offAxisCoefficient (angleOfDelivery bufferToAdd listeningNodeBuffer)
          -- lines 168-174: distance coefficient, clamped to at most 1
          let distanceCoefficient := min 1 (distanceCoefficientRaw distanceSquareToSource2)
          let attenuationCoefficient3 := attenuationCoefficient2 * distanceCoefficient
          -- lines 180-190: bearing, phase delay and weak-channel ratio
          let bearingRelativeAngleToSource := bearingAngle bufferToAdd listeningNodeBuffer
          let sinRatio := |Real.sin bearingRelativeAngleToSource|
          let numSamplesDelay := (rtrunc ((SAMPLE_PHASE_DELAY_AT_90 : ℝ) * sinRatio)).toNat
          let weakChannelAmplitudeRatio := 1 - PHASE_AMPLITUDE_RATIO_AT_90 * sinRatio
          some ⟨bearingRelativeAngleToSource, attenuationCoefficient3,
                numSamplesDelay, weakChannelAmplitudeRatio, true⟩
        else
          -- listener inside the spherical source: lines 135-191 are skipped
          some ⟨0, attenuationCoefficient1, 0, 1, true⟩
      else
        -- zone made shouldAttenuate false: lines 120-192 are skipped entirely
        some ⟨0, 1, 0, 1, false⟩
  else
    -- self buffer: lines 98-193 are skipped entirely
    some ⟨0, 1, 0, 1, false⟩

/-! ### Mono accumulation (lines 197-327)

The MMX batches read all their operands before writing, and every index written
within one batch is distinct (good-channel and delayed-channel indices have
opposite parity), so each batch is the corresponding sequence of independent
saturating adds. -/

/-- One iteration of the main mono loop (lines 212-239), at s = 4 * k. -/
noncomputable def monoMainStep (b : PABuffer) (attenuationCoefficient : ℝ)
    (weakChannelAmplitudeRatio : ℝ) (numSamplesDelay : ℕ)
    (delayedChannelOffset goodChannelOffset : ℕ)
    (cs : ℕ → ℤ) (k : ℕ) : ℕ → ℤ :=
  let s := 4 * k
  -- lines 215-216: int16_t correctBufferSample[i] = nextOutputStart[...] * attenuation
  let correctBufferSample0 : ℤ := rtrunc ((nextOut b (s / 2) : ℝ) * attenuationCoefficient)
  let correctBufferSample1 : ℤ := rtrunc ((nextOut b (s / 2 + 1) : ℝ) * attenuationCoefficient)
  -- line 218
  let delayedChannelIndex := s + numSamplesDelay * 2 + delayedChannelOffset
  -- lines 220-221
  let delayBufferSample0 : ℤ := rtrunc ((correctBufferSample0 : ℝ) * weakChannelAmplitudeRatio)
  let delayBufferSample1 : ℤ := rtrunc ((correctBufferSample1 : ℝ) * weakChannelAmplitudeRatio)
  -- lines 223-238: four saturating adds
  let cs1 := upd cs (s + goodChannelOffset)
    (adds_pi16 (cs (s + goodChannelOffset)) correctBufferSample0)
  let cs2 := upd cs1 (s + goodChannelOffset + 2)
    (adds_pi16 (cs1 (s + goodChannelOffset + 2)) correctBufferSample1)
  let cs3 := upd cs2 delayedChannelIndex
    (adds_pi16 (cs2 delayedChannelIndex) delayBufferSample0)
  upd cs3 (delayedChannelIndex + 2)
    (adds_pi16 (cs3 (delayedChannelIndex + 2)) delayBufferSample1)

/-- The main mono loop (lines 212-239): s ranges over 0, 4, ..., 476. -/
noncomputable def monoMainAccumulate (b : PABuffer) (attenuationCoefficient : ℝ)
    (weakChannelAmplitudeRatio : ℝ) (numSamplesDelay : ℕ)
    (delayedChannelOffset goodChannelOffset : ℕ) (cs : ℕ → ℤ) : ℕ → ℤ :=
  (List.range (NETWORK_BUFFER_LENGTH_SAMPLES_STEREO / 4)).foldl
    (monoMainStep b attenuationCoefficient weakChannelAmplitudeRatio numSamplesDelay
      delayedChannelOffset goodChannelOffset) cs

/-- Lines 253-256: the start offset of the delay window.  The pointer
nextOutputStart - numSamplesDelay lies before getBuffer() exactly when
nextOutputPos < numSamplesDelay, in which case the window is relocated to the
last numSamplesDelay samples of the circular array. -/
def delayStartIndex (b : PABuffer) (numSamplesDelay : ℕ) : ℕ :=
  if b.nextOutputPos < numSamplesDelay then b.sampleCapacity - numSamplesDelay
  else b.nextOutputPos - numSamplesDelay

/-- One delayed sample accumulated at lines 260-326 (the 4/3/2/1-wide MMX
batches perform exactly one saturating add per delayed sample i, at client
index i * 2 + delayedChannelOffset). -/
noncomputable def monoDelayStep (b : PABuffer) (attenuationAndWeakChannelRatio : ℝ)
    (delayedChannelOffset delayStart : ℕ) (cs : ℕ → ℤ) (i : ℕ) : ℕ → ℤ :=
  let parentIndex := i * 2
  upd cs (parentIndex + delayedChannelOffset)
    (adds_pi16 (cs (parentIndex + delayedChannelOffset))
      (rtrunc ((b.samples (delayStart + i) : ℝ) * attenuationAndWeakChannelRatio)))

/-- The delay-window section (lines 249-327), entered only when numSamplesDelay > 0. -/
noncomputable def monoDelayAccumulate (b : PABuffer) (attenuationCoefficient : ℝ)
    (weakChannelAmplitudeRatio : ℝ) (numSamplesDelay : ℕ)
    (delayedChannelOffset : ℕ) (cs : ℕ → ℤ) : ℕ → ℤ :=
  -- line 252
  let attenuationAndWeakChannelRatio := attenuationCoefficient * weakChannelAmplitudeRatio
  (List.range numSamplesDelay).foldl
    (monoDelayStep b attenuationAndWeakChannelRatio delayedChannelOffset
      (delayStartIndex b numSamplesDelay)) cs

/-! ### Stereo / unattenuated accumulation (lines 328-354) -/

/-- int stereoDivider = bufferToAdd->isStereo() ? 1 : 2 (line 332). -/
def stereoDivider (b : PABuffer) : ℕ := if b.isStereo then 1 else 2

/-- One iteration of the stereo/unattenuated loop (lines 330-353), at s = 4 * k.
All index arithmetic on the divider uses C integer division (1 / 2 = 0).
When shouldAttenuate is false the loop body resets the coefficient to 1 (lines 334-336). -/
noncomputable def stereoStep (b : PABuffer) (shouldAttenuate : Bool)
    (attenuationCoefficient : ℝ) (cs : ℕ → ℤ) (k : ℕ) : ℕ → ℤ :=
  let s := 4 * k
  let a : ℝ := if shouldAttenuate then attenuationCoefficient else 1
  let cs0 := upd cs s (glmClamp (cs s +
    rtrunc ((nextOut b (s / stereoDivider b) : ℝ) * a)) MIN_SAMPLE_VALUE MAX_SAMPLE_VALUE)
  let cs1 := upd cs0 (s + 1) (glmClamp (cs0 (s + 1) +
    rtrunc ((nextOut b (s / stereoDivider b + 1 / stereoDivider b) : ℝ) * a))
    MIN_SAMPLE_VALUE MAX_SAMPLE_VALUE)
  let cs2 := upd cs1 (s + 2) (glmClamp (cs1 (s + 2) +
    rtrunc ((nextOut b (s / stereoDivider b + 2 / stereoDivider b) : ℝ) * a))
    MIN_SAMPLE_VALUE MAX_SAMPLE_VALUE)
  upd cs2 (s + 3) (glmClamp (cs2 (s + 3) +
    rtrunc ((nextOut b (s / stereoDivider b + 3 / stereoDivider b) : ℝ) * a))
    MIN_SAMPLE_VALUE MAX_SAMPLE_VALUE)

/-- The stereo/unattenuated loop (lines 330-353): s ranges over 0, 4, ..., 476. -/
noncomputable def stereoAccumulate (b : PABuffer) (shouldAttenuate : Bool)
    (attenuationCoefficient : ℝ) (cs : ℕ → ℤ) : ℕ → ℤ :=
  (List.range (NETWORK_BUFFER_LENGTH_SAMPLES_STEREO / 4)).foldl
    (stereoStep b shouldAttenuate attenuationCoefficient) cs

/-! ### The whole mixing routine -/

/-- Lines 195-354: the accumulation of the source's next frame into the client
mix, given the spatialization parameters computed by lines 91-193. -/
noncomputable def accumulateWithParams (bufferToAdd : PABuffer) (p : MixParams)
    (clientSamples : ℕ → ℤ) : ℕ → ℤ :=
  if bufferToAdd.isStereo = false ∧ p.shouldAttenuate = true then
    -- lines 197-327: full attenuation and spatialization
    let delayedChannelOffset : ℕ := if p.bearingRelativeAngleToSource > 0 then 1 else 0
    let goodChannelOffset : ℕ := if delayedChannelOffset = 0 then 1 else 0
    let cs1 := monoMainAccumulate bufferToAdd p.attenuationCoefficient
      p.weakChannelAmplitudeRatio p.numSamplesDelay delayedChannelOffset
      goodChannelOffset clientSamples
    if 0 < p.numSamplesDelay then
      monoDelayAccumulate bufferToAdd p.attenuationCoefficient
        p.weakChannelAmplitudeRatio p.numSamplesDelay delayedChannelOffset cs1
    else cs1
  else
    -- lines 328-354: stereo or unattenuated
    stereoAccumulate bufferToAdd p.shouldAttenuate p.attenuationCoefficient clientSamples

/-- AudioMixer::addBufferToMixForListeningNodeWithBuffer (lines 89-355),
as a transformer of the _clientSamples block (modelled as a total function on
indices; the real array is sized to absorb the delayed-channel writes past
index 479, which are scratch and never sent). -/
noncomputable def addBufferToMixForListeningNodeWithBuffer
    (bufferToAdd listeningNodeBuffer : PABuffer) (minAudibilityThreshold : ℝ)
    (clientSamples : ℕ → ℤ) : ℕ → ℤ :=
  match mixParams bufferToAdd listeningNodeBuffer minAudibilityThreshold with
  | none => clientSamples
  | some p => accumulateWithParams bufferToAdd p clientSamples

/-! ### prepareMixForListeningNode (lines 357-382) -/

/-- One node of the node hash, with its linked AudioMixerClientData: the list of
positional ring buffers getRingBuffers() and the avatar's own ring buffer.
Pointer identity of nodes is modelled by nodeId. -/
structure NodeRec where
  nodeId : ℕ
  buffers : List PABuffer
  avatarBuffer : PABuffer

/-- AudioMixer::prepareMixForListeningNode: zero the client mix, then add every
buffer of every node that is not the listener's own non-loopback buffer, will be
added to the mix, and has positive trailing loudness. -/
noncomputable def prepareMixForListeningNode (nodes : List NodeRec) (node : NodeRec)
    (minAudibilityThreshold : ℝ) : ℕ → ℤ :=
  let nodeRingBuffer := node.avatarBuffer
  nodes.foldl (fun cs otherNode =>
    otherNode.buffers.foldl (fun cs otherNodeBuffer =>
      if (otherNode.nodeId ≠ node.nodeId ∨ otherNodeBuffer.shouldLoopback = true)
          ∧ otherNodeBuffer.willBeAddedToMix = true
          ∧ otherNodeBuffer.nextOutputTrailingLoudness > 0 then
        addBufferToMixForListeningNodeWithBuffer otherNodeBuffer nodeRingBuffer
          minAudibilityThreshold cs
      else cs) cs)
    (fun _ => 0)

/-! ### The frame scheduler's throttle (AudioMixer::run, lines 520-591)

This logic is exact rational arithmetic, so it is embedded over Q. -/

/-- const float LOUDNESS_TO_DISTANCE_RATIO = 0.00001f (line 57), as a rational. -/
def loudnessToDistanceRatioQ : ℚ := 1 / 100000

/-- const int TRAILING_AVERAGE_FRAMES = 100 (line 529). -/
def TRAILING_AVERAGE_FRAMES : ℕ := 100

/-- BUFFER_SEND_INTERVAL_USECS.  Modelled from the spec: FRAME_INTERVAL_US = 10000. -/
def bufferSendIntervalUsecs : ℚ := 10000

/-- STRUGGLE_TRIGGER_SLEEP_PERCENTAGE_THRESHOLD = 0.10f (line 541). -/
def struggleTriggerSleepThreshold : ℚ := 10 / 100

/-- BACK_OFF_TRIGGER_SLEEP_PERCENTAGE_THRESHOLD = 0.20f (line 542). -/
def backOffTriggerSleepThreshold : ℚ := 20 / 100

/-- RATIO_BACK_OFF = 0.02f (line 544). -/
def ratioBackOff : ℚ := 2 / 100

/-- CURRENT_FRAME_RATIO = 1 / TRAILING_AVERAGE_FRAMES (line 546). -/
def currentFrameRatio : ℚ := 1 / TRAILING_AVERAGE_FRAMES

/-- PREVIOUS_FRAMES_RATIO = 1 - CURRENT_FRAME_RATIO (line 547). -/
def previousFramesRatio : ℚ := 1 - currentFrameRatio

/-- The scheduler state carried across iterations of the run loop:
_trailingSleepRatio, _performanceThrottlingRatio, _minAudibilityThreshold
(members set in the constructor) and framesSinceCutoffEvent (local, line 530). -/
structure SchedState where
  trailingSleepRatio : ℚ
  performanceThrottlingRatio : ℚ
  minAudibilityThreshold : ℚ
  framesSinceCutoffEvent : ℕ

/-- The state at entry of the while loop: the constructor initializers of
lines 71-73 and framesSinceCutoffEvent = TRAILING_AVERAGE_FRAMES of line 530. -/
def initState : SchedState :=
  ⟨1, 0, loudnessToDistanceRatioQ / 2, TRAILING_AVERAGE_FRAMES⟩

/-- The trailing sleep ratio computed at lines 549-554 from the previous state
and this frame's usecToSleep (clamped below at 0). -/
def newTrailingSleepRatio (st : SchedState) (usecToSleep : ℤ) : ℚ :=
  let u : ℤ := if usecToSleep < 0 then 0 else usecToSleep
  previousFramesRatio * st.trailingSleepRatio +
    (u : ℚ) * currentFrameRatio / bufferSendIntervalUsecs

/-- One iteration of the throttle logic of the run loop (lines 549-591). -/
def schedStep (st : SchedState) (usecToSleep : ℤ) : SchedState :=
  let tsr := newTrailingSleepRatio st usecToSleep
  if st.framesSinceCutoffEvent ≥ TRAILING_AVERAGE_FRAMES then
    if tsr ≤ struggleTriggerSleepThreshold then
      -- lines 560-566: raise the throttle
      let ptr := st.performanceThrottlingRatio +
        (1 / 2) * (1 - st.performanceThrottlingRatio)
      ⟨tsr, ptr, loudnessToDistanceRatioQ / (2 * (1 - ptr)), 0⟩
    else if tsr ≥ backOffTriggerSleepThreshold ∧ st.performanceThrottlingRatio ≠ 0 then
      -- lines 567-577: lower the throttle, floored at 0
      let ptr0 := st.performanceThrottlingRatio - ratioBackOff
      let ptr := if ptr0 < 0 then 0 else ptr0
      ⟨tsr, ptr, loudnessToDistanceRatioQ / (2 * (1 - ptr)), 0⟩
    else
      ⟨tsr, st.performanceThrottlingRatio, st.minAudibilityThreshold,
       st.framesSinceCutoffEvent + 1⟩
  else
    ⟨tsr, st.performanceThrottlingRatio, st.minAudibilityThreshold,
     st.framesSinceCutoffEvent + 1⟩

/-- Running the throttle logic over a trace of per-frame usecToSleep values. -/
def runSched (st : SchedState) (us : List ℤ) : SchedState := us.foldl schedStep st

/-- A scheduler state is reachable when some trace of frames leads to it from
the startup state. -/
def SchedReachable (st : SchedState) : Prop := ∃ us : List ℤ, runSched initState us = st

/-- A frame performs a throttle adjustment exactly when it resets
framesSinceCutoffEvent to 0 (lines 580-586). -/
def adjusts (st : SchedState) (usecToSleep : ℤ) : Prop :=
  (schedStep st usecToSleep).framesSinceCutoffEvent = 0

/-! ### Scheduler lemmas -/

/-- Invariance of a predicate along every trace of the throttle logic. -/
theorem runSched_invariant (P : SchedState → Prop)
    (hstep : ∀ st u, P st → P (schedStep st u)) :
    ∀ (us : List ℤ) (st : SchedState), P st → P (runSched st us) := by
  intro us
  induction us with
  | nil => intro st h; exact h
  | cons u us ih =>
    intro st h
    exact ih (schedStep st u) (hstep st u h)

/-- The frame counter grows by at most one per frame. -/
theorem runSched_frames_le (us : List ℤ) :
    ∀ st : SchedState,
      (runSched st us).framesSinceCutoffEvent ≤ st.framesSinceCutoffEvent + us.length := by
  induction us with
  | nil => intro st; simp [runSched]
  | cons u us ih =>
    intro st
    refine le_trans (ih (schedStep st u)) ?_
    have hstep : (schedStep st u).framesSinceCutoffEvent ≤ st.framesSinceCutoffEvent + 1 := by
      unfold schedStep
      dsimp only
      split_ifs <;> simp
    calc (schedStep st u).framesSinceCutoffEvent + us.length
        ≤ (st.framesSinceCutoffEvent + 1) + us.length := Nat.add_le_add_right hstep us.length
      _ = st.framesSinceCutoffEvent + (u :: us).length := by
          rw [List.length_cons]; omega

/-- An adjustment can only happen when the frame counter has reached the debounce bound. -/
theorem adjusts_requires_debounce (st : SchedState) (u : ℤ) (h : adjusts st u) :
    st.framesSinceCutoffEvent ≥ TRAILING_AVERAGE_FRAMES := by
  by_contra hlt
  unfold adjusts schedStep at h
  dsimp only at h
  rw [if_neg hlt] at h
  exact Nat.succ_ne_zero _ h

/-- Claim C8: the throttle state machine.  At an evaluation point (the frame
counter has reached TRAILING_AVERAGE_FRAMES = 100): a trailing sleep ratio at most
0.10 raises the throttle to old + 0.5 * (1 - old); otherwise a trailing sleep ratio
at least 0.20 with a nonzero throttle lowers it to max(0, old - 0.02); otherwise the
throttle is unchanged.  Below the bound the throttle is unchanged, and after any
adjustment no further adjustment happens for fewer than 100 frames. -/
theorem c8_throttle_state_machine :
    ∀ (st : SchedState) (u : ℤ),
      (st.framesSinceCutoffEvent ≥ TRAILING_AVERAGE_FRAMES →
        ((newTrailingSleepRatio st u ≤ struggleTriggerSleepThreshold →
          (schedStep st u).performanceThrottlingRatio =
            st.performanceThrottlingRatio +
              (1 / 2) * (1 - st.performanceThrottlingRatio) ∧ adjusts st u) ∧
        (¬ newTrailingSleepRatio st u ≤ struggleTriggerSleepThreshold →
          newTrailingSleepRatio st u ≥ backOffTriggerSleepThreshold →
          st.performanceThrottlingRatio ≠ 0 →
          (schedStep st u).performanceThrottlingRatio =
            max 0 (st.performanceThrottlingRatio - ratioBackOff) ∧ adjusts st u) ∧
        (¬ newTrailingSleepRatio st u ≤ struggleTriggerSleepThreshold →
          ¬ (newTrailingSleepRatio st u ≥ backOffTriggerSleepThreshold ∧
              st.performanceThrottlingRatio ≠ 0) →
          (schedStep st u).performanceThrottlingRatio =
            st.performanceThrottlingRatio ∧ ¬ adjusts st u))) ∧
      (st.framesSinceCutoffEvent < TRAILING_AVERAGE_FRAMES →
        (schedStep st u).performanceThrottlingRatio =
          st.performanceThrottlingRatio ∧ ¬ adjusts st u) ∧
      (adjusts st u → ∀ us : List ℤ, us.length < TRAILING_AVERAGE_FRAMES →
        ∀ u' : ℤ, ¬ adjusts (runSched (schedStep st u) us) u') := by
  intro st u
  refine ⟨?_, ?_, ?_⟩
  · intro hframes
    refine ⟨?_, ?_, ?_⟩
    · intro hstruggle
      constructor
      · unfold schedStep
        dsimp only
        rw [if_pos hframes, if_pos hstruggle]
      · unfold adjusts schedStep
        dsimp only
        rw [if_pos hframes, if_pos hstruggle]
    · intro hnstruggle hback hnz
      constructor
      · unfold schedStep
        dsimp only
        rw [if_pos hframes, if_neg hnstruggle, if_pos ⟨hback, hnz⟩]
        dsimp only
        rcases lt_or_ge (st.performanceThrottlingRatio - ratioBackOff) 0 with hlt | hge
        · rw [if_pos hlt]
          exact (max_eq_left (le_of_lt hlt)).symm
        · rw [if_neg (not_lt.mpr hge)]
          exact (max_eq_right hge).symm
      · unfold adjusts schedStep
        dsimp only
        rw [if_pos hframes, if_neg hnstruggle, if_pos ⟨hback, hnz⟩]
    · intro hnstruggle hnback
      constructor
      · unfold schedStep
        dsimp only
        rw [if_pos hframes, if_neg hnstruggle, if_neg hnback]
      · unfold adjusts schedStep
        dsimp only
        rw [if_pos hframes, if_neg hnstruggle, if_neg hnback]
        exact Nat.succ_ne_zero _
  · intro hframes
    constructor
    · unfold schedStep
      dsimp only
      rw [if_neg (not_le.mpr hframes)]
    · unfold adjusts schedStep
      dsimp only
      rw [if_neg (not_le.mpr hframes)]
      exact Nat.succ_ne_zero _
  · intro hadj us hlen u' hadj'
    have h0 : (schedStep st u).framesSinceCutoffEvent = 0 := hadj
    have hle := runSched_frames_le us (schedStep st u)
    rw [h0, Nat.zero_add] at hle
    have hge := adjusts_requires_debounce _ _ hadj'
    exact absurd (le_trans hge hle) (not_le.mpr hlen)

/-- A struggling scheduler state: zero trailing sleep, zero throttle, at the
debounce bound. -/
def stStruggle : SchedState := ⟨0, 0, 1 / 200000, 100⟩

/-- A recovered scheduler state: full trailing sleep, throttle one half, at the
debounce bound. -/
def stRecover : SchedState := ⟨1, 1 / 2, 1 / 100000, 100⟩

/-- Witness for C8: three concrete applications.  A struggling state (trailing
sleep ratio 0) raises the throttle from 0 to 1/2; a recovered state (trailing
sleep ratio reaching 1) lowers the throttle from 1/2; and from a freshly-adjusted
state the empty continuation performs no further adjustment. -/
theorem c8_throttle_state_machine_witness :
    (stStruggle.framesSinceCutoffEvent ≥ TRAILING_AVERAGE_FRAMES ∧
      newTrailingSleepRatio stStruggle 0 ≤ struggleTriggerSleepThreshold ∧
      (schedStep stStruggle 0).performanceThrottlingRatio =
        stStruggle.performanceThrottlingRatio +
          (1 / 2) * (1 - stStruggle.performanceThrottlingRatio)) ∧
    (stRecover.framesSinceCutoffEvent ≥ TRAILING_AVERAGE_FRAMES ∧
      ¬ newTrailingSleepRatio stRecover 10000 ≤ struggleTriggerSleepThreshold ∧
      newTrailingSleepRatio stRecover 10000 ≥ backOffTriggerSleepThreshold ∧
      stRecover.performanceThrottlingRatio ≠ 0 ∧
      (schedStep stRecover 10000).performanceThrottlingRatio =
        max 0 (stRecover.performanceThrottlingRatio - ratioBackOff)) ∧
    (adjusts stStruggle 0 ∧
      ([] : List ℤ).length < TRAILING_AVERAGE_FRAMES ∧
      ¬ adjusts (runSched (schedStep stStruggle 0) []) 0) := by
  have h1frames : stStruggle.framesSinceCutoffEvent ≥ TRAILING_AVERAGE_FRAMES := by
    norm_num [stStruggle, TRAILING_AVERAGE_FRAMES]
  have h1tsr : newTrailingSleepRatio stStruggle 0 ≤ struggleTriggerSleepThreshold := by
    norm_num [newTrailingSleepRatio, stStruggle, previousFramesRatio, currentFrameRatio,
      struggleTriggerSleepThreshold, TRAILING_AVERAGE_FRAMES, bufferSendIntervalUsecs]
  have h2frames : stRecover.framesSinceCutoffEvent ≥ TRAILING_AVERAGE_FRAMES := by
    norm_num [stRecover, TRAILING_AVERAGE_FRAMES]
  have h2tsr : newTrailingSleepRatio stRecover 10000 = 1 := by
    norm_num [newTrailingSleepRatio, stRecover, previousFramesRatio, currentFrameRatio,
      TRAILING_AVERAGE_FRAMES, bufferSendIntervalUsecs]
  have h2n : ¬ newTrailingSleepRatio stRecover 10000 ≤ struggleTriggerSleepThreshold := by
    rw [h2tsr]; norm_num [struggleTriggerSleepThreshold]
  have h2b : newTrailingSleepRatio stRecover 10000 ≥ backOffTriggerSleepThreshold := by
    rw [h2tsr]; norm_num [backOffTriggerSleepThreshold]
  have h2z : stRecover.performanceThrottlingRatio ≠ 0 := by
    norm_num [stRecover]
  have hadj : adjusts stStruggle 0 :=
    (((c8_throttle_state_machine stStruggle 0).1 h1frames).1 h1tsr).2
  refine ⟨⟨h1frames, h1tsr, ?_⟩, ⟨h2frames, h2n, h2b, h2z, ?_⟩,
    hadj, by norm_num [TRAILING_AVERAGE_FRAMES], ?_⟩
  · exact (((c8_throttle_state_machine stStruggle 0).1 h1frames).1 h1tsr).1
  · exact (((c8_throttle_state_machine stRecover 10000).1 h2frames).2.1 h2n h2b h2z).1
  · exact (c8_throttle_state_machine stStruggle 0).2.2 hadj []
      (by norm_num [TRAILING_AVERAGE_FRAMES]) 0

/-- Claim C9: in every reachable scheduler state the audibility threshold equals
LOUDNESS_TO_DISTANCE_RATIO / (2 * (1 - performance_throttling_ratio)); at startup
the throttling ratio is 0 and the threshold is 0.5e-5. -/
theorem c9_min_audibility_threshold_invariant :
    (initState.performanceThrottlingRatio = 0 ∧
      initState.minAudibilityThreshold = 1 / 200000) ∧
    ∀ st : SchedState, SchedReachable st →
      st.minAudibilityThreshold =
        loudnessToDistanceRatioQ / (2 * (1 - st.performanceThrottlingRatio)) := by
  constructor
  · exact ⟨rfl, by norm_num [initState, loudnessToDistanceRatioQ]⟩
  · intro st hst
    obtain ⟨us, hus⟩ := hst
    have hinv := runSched_invariant
      (fun s => s.minAudibilityThreshold =
        loudnessToDistanceRatioQ / (2 * (1 - s.performanceThrottlingRatio)))
      ?_ us initState ?_
    · rw [hus] at hinv; exact hinv
    · intro s u hs
      unfold schedStep
      dsimp only
      split_ifs <;> simp [hs]
    · norm_num [initState, loudnessToDistanceRatioQ]

/-- Witness for C9: the startup state is reachable (by the empty trace) and
satisfies the invariant there. -/
theorem c9_min_audibility_threshold_invariant_witness :
    SchedReachable initState ∧
      initState.minAudibilityThreshold =
        loudnessToDistanceRatioQ / (2 * (1 - initState.performanceThrottlingRatio)) :=
  ⟨⟨[], rfl⟩, c9_min_audibility_threshold_invariant.2 initState ⟨[], rfl⟩⟩

/-- Claim C10: in every reachable scheduler state the throttling ratio lies in
[0, 1), so 1 - ratio is strictly positive and the threshold update never divides
by zero. -/
theorem c10_throttling_ratio_in_unit_interval :
    ∀ st : SchedState, SchedReachable st →
      0 ≤ st.performanceThrottlingRatio ∧ st.performanceThrottlingRatio < 1 ∧
        0 < 1 - st.performanceThrottlingRatio := by
  intro st hst
  obtain ⟨us, hus⟩ := hst
  have hinv := runSched_invariant
    (fun s => 0 ≤ s.performanceThrottlingRatio ∧ s.performanceThrottlingRatio < 1)
    ?_ us initState ?_
  · rw [hus] at hinv
    exact ⟨hinv.1, hinv.2, by linarith [hinv.2]⟩
  · intro s u hs
    obtain ⟨h0, h1⟩ := hs
    unfold schedStep
    dsimp only
    split_ifs with hf hs1 hs2 hneg
    · exact ⟨by linarith, by linarith⟩
    · exact ⟨le_refl 0, one_pos⟩
    · unfold ratioBackOff
      constructor
      · rw [not_lt] at hneg
        unfold ratioBackOff at hneg
        linarith
      · linarith
    · exact ⟨h0, h1⟩
    · exact ⟨h0, h1⟩
  · norm_num [initState]

/-- Witness for C10: the startup state is reachable and its ratio lies in [0, 1). -/
theorem c10_throttling_ratio_in_unit_interval_witness :
    SchedReachable initState ∧
      (0 ≤ initState.performanceThrottlingRatio ∧ initState.performanceThrottlingRatio < 1 ∧
        0 < 1 - initState.performanceThrottlingRatio) :=
  ⟨⟨[], rfl⟩, c10_throttling_ratio_in_unit_interval initState ⟨[], rfl⟩⟩

/-! ### Claim C2: the audibility gate -/

/-- Under the audibility gate condition, lines 91-193 end in the early return. -/
theorem mixParams_gate_none (b l : PABuffer) (thr : ℝ)
    (hid : b.bufId ≠ l.bufId)
    (hgate : b.nextOutputTrailingLoudness /
        (if Vec3.length (Vec3.sub b.position l.position) < EPSILON then EPSILON
         else Vec3.length (Vec3.sub b.position l.position)) ≤ thr) :
    mixParams b l thr = none := by
  unfold mixParams
  dsimp only
  rw [if_pos hid, if_pos hgate]

/-- Claim C2: for every source buffer other than the listener's own, if the
source's trailing loudness divided by the EPSILON-clamped distance is at most
the minimum audibility threshold (boundary equality included), then
addBufferToMixForListeningNodeWithBuffer leaves the client mix unchanged. -/
theorem c2_audibility_gate_skips (b l : PABuffer) (thr : ℝ) (cs : ℕ → ℤ)
    (hid : b.bufId ≠ l.bufId)
    (hgate : b.nextOutputTrailingLoudness /
        (if Vec3.length (Vec3.sub b.position l.position) < EPSILON then EPSILON
         else Vec3.length (Vec3.sub b.position l.position)) ≤ thr) :
    addBufferToMixForListeningNodeWithBuffer b l thr cs = cs := by
  unfold addBufferToMixForListeningNodeWithBuffer
  rw [mixParams_gate_none b l thr hid hgate]

/-- A silent mono microphone source one meter in front of the listener. -/
noncomputable def silentSourceBuf : PABuffer :=
  { bufId := 1, position := ⟨0, 0, 0⟩, orientation := ⟨1, 0, 0, 0⟩,
    nextOutputTrailingLoudness := 0, listenerUnattenuatedZone := none,
    isInjector := false, radius := 0, attenuationRatio := 1, isStereo := false,
    shouldLoopback := false, willBeAddedToMix := true,
    samples := fun _ => 0, sampleCapacity := 2400, nextOutputPos := 0 }

/-- The listener buffer for the gate witness. -/
noncomputable def gateListenerBuf : PABuffer :=
  { bufId := 0, position := ⟨0, 0, 1⟩, orientation := ⟨1, 0, 0, 0⟩,
    nextOutputTrailingLoudness := 1, listenerUnattenuatedZone := none,
    isInjector := false, radius := 0, attenuationRatio := 1, isStereo := false,
    shouldLoopback := false, willBeAddedToMix := true,
    samples := fun _ => 0, sampleCapacity := 2400, nextOutputPos := 0 }

/-- Witness for C2: a source with zero trailing loudness fails the gate at the
default threshold and contributes nothing. -/
theorem c2_audibility_gate_skips_witness :
    silentSourceBuf.bufId ≠ gateListenerBuf.bufId ∧
    silentSourceBuf.nextOutputTrailingLoudness /
        (if Vec3.length (Vec3.sub silentSourceBuf.position gateListenerBuf.position) < EPSILON
         then EPSILON
         else Vec3.length (Vec3.sub silentSourceBuf.position gateListenerBuf.position)) ≤
      loudnessToDistanceRatioR / 2 ∧
    addBufferToMixForListeningNodeWithBuffer silentSourceBuf gateListenerBuf
      (loudnessToDistanceRatioR / 2) (fun _ => 0) = (fun _ => 0) := by
  have hid : silentSourceBuf.bufId ≠ gateListenerBuf.bufId := by
    simp [silentSourceBuf, gateListenerBuf]
  have hgate : silentSourceBuf.nextOutputTrailingLoudness /
      (if Vec3.length (Vec3.sub silentSourceBuf.position gateListenerBuf.position) < EPSILON
       then EPSILON
       else Vec3.length (Vec3.sub silentSourceBuf.position gateListenerBuf.position)) ≤
      loudnessToDistanceRatioR / 2 := by
    have hl : silentSourceBuf.nextOutputTrailingLoudness = 0 := rfl
    rw [hl, zero_div]
    norm_num [loudnessToDistanceRatioR]
  exact ⟨hid, hgate,
    c2_audibility_gate_skips silentSourceBuf gateListenerBuf
      (loudnessToDistanceRatioR / 2) (fun _ => 0) hid hgate⟩

/-! ### Pointwise lemmas for the accumulation loops -/

theorem upd_apply (f : ℕ → ℤ) (i : ℕ) (v : ℤ) (j : ℕ) :
    upd f i v j = if j = i then v else f j := rfl

/-- Truncation toward zero of an integer-valued real is that integer. -/
theorem rtrunc_intCast (n : ℤ) : rtrunc (n : ℝ) = n := by
  unfold rtrunc
  split
  · exact Int.floor_intCast n
  · exact Int.ceil_intCast n

theorem rtrunc_zero : rtrunc 0 = 0 := by
  simpa using rtrunc_intCast 0

/-- Divider index arithmetic of the stereo loop: for s = 4k and an offset
below 4, s / d + offset / d = (s + offset) / d when d is 1 or 2. -/
theorem stereoDivider_index (k jj d : ℕ) (hd : d = 1 ∨ d = 2) :
    4 * k / d + jj / d = (4 * k + jj) / d := by
  rcases hd with h | h <;> subst h <;> omega

/-- The value of one stereo-loop iteration at any index: indices 4k..4k+3 get
the clamped widened add, all others are untouched. -/
theorem stereoStep_apply (b : PABuffer) (sa : Bool) (a : ℝ) (cs : ℕ → ℤ) (k j : ℕ) :
    stereoStep b sa a cs k j =
      if j = 4 * k ∨ j = 4 * k + 1 ∨ j = 4 * k + 2 ∨ j = 4 * k + 3 then
        glmClamp (cs j + rtrunc ((nextOut b (j / stereoDivider b) : ℝ) *
          (if sa then a else 1))) MIN_SAMPLE_VALUE MAX_SAMPLE_VALUE
      else cs j := by
  have hd : stereoDivider b = 1 ∨ stereoDivider b = 2 := by
    unfold stereoDivider
    split
    · exact Or.inl rfl
    · exact Or.inr rfl
  unfold stereoStep upd
  by_cases h0 : j = 4 * k
  · subst h0
    simp [show ¬ (4 * k = 4 * k + 1) by omega, show ¬ (4 * k = 4 * k + 2) by omega,
      show ¬ (4 * k = 4 * k + 3) by omega]
  · by_cases h1 : j = 4 * k + 1
    · subst h1
      have e1 : 4 * k / stereoDivider b + 1 / stereoDivider b =
          (4 * k + 1) / stereoDivider b := stereoDivider_index k 1 _ hd
      simp [show ¬ (4 * k + 1 = 4 * k) by omega, show ¬ (4 * k + 1 = 4 * k + 2) by omega,
        show ¬ (4 * k + 1 = 4 * k + 3) by omega, e1]
    · by_cases h2 : j = 4 * k + 2
      · subst h2
        have e2 : 4 * k / stereoDivider b + 2 / stereoDivider b =
            (4 * k + 2) / stereoDivider b := stereoDivider_index k 2 _ hd
        simp [show ¬ (4 * k + 2 = 4 * k) by omega, show ¬ (4 * k + 2 = 4 * k + 1) by omega,
          show ¬ (4 * k + 2 = 4 * k + 3) by omega, e2]
      · by_cases h3 : j = 4 * k + 3
        · subst h3
          have e3 : 4 * k / stereoDivider b + 3 / stereoDivider b =
              (4 * k + 3) / stereoDivider b := stereoDivider_index k 3 _ hd
          simp [show ¬ (4 * k + 3 = 4 * k) by omega, show ¬ (4 * k + 3 = 4 * k + 1) by omega,
            show ¬ (4 * k + 3 = 4 * k + 2) by omega, e3]
        · simp [h0, h1, h2, h3]

/-- The prefix of the stereo loop up to iteration n transforms exactly the
indices below 4n, each by one clamped widened add of its own source sample. -/
theorem stereoAccumulate_upTo (b : PABuffer) (sa : Bool) (a : ℝ) :
    ∀ (n : ℕ) (cs : ℕ → ℤ) (j : ℕ),
      ((List.range n).foldl (stereoStep b sa a) cs) j =
        if j < 4 * n then
          glmClamp (cs j + rtrunc ((nextOut b (j / stereoDivider b) : ℝ) *
            (if sa then a else 1))) MIN_SAMPLE_VALUE MAX_SAMPLE_VALUE
        else cs j := by
  intro n
  induction n with
  | zero => intro cs j; simp
  | succ n ih =>
    intro cs j
    rw [List.range_succ, List.foldl_append, List.foldl_cons, List.foldl_nil]
    rw [stereoStep_apply]
    by_cases hj : j = 4 * n ∨ j = 4 * n + 1 ∨ j = 4 * n + 2 ∨ j = 4 * n + 3
    · have hge : ¬ j < 4 * n := by omega
      have hlt : j < 4 * (n + 1) := by omega
      rw [if_pos hj, ih cs j, if_neg hge, if_pos hlt]
    · rw [if_neg hj, ih cs j]
      by_cases hlt : j < 4 * n
      · rw [if_pos hlt, if_pos (by omega : j < 4 * (n + 1))]
      · rw [if_neg hlt, if_neg (by omega : ¬ j < 4 * (n + 1))]

/-- The stereo/unattenuated loop, pointwise on the output block. -/
theorem stereoAccumulate_apply (b : PABuffer) (sa : Bool) (a : ℝ) (cs : ℕ → ℤ)
    (j : ℕ) (hj : j < NETWORK_BUFFER_LENGTH_SAMPLES_STEREO) :
    stereoAccumulate b sa a cs j =
      glmClamp (cs j + rtrunc ((nextOut b (j / stereoDivider b) : ℝ) *
        (if sa then a else 1))) MIN_SAMPLE_VALUE MAX_SAMPLE_VALUE := by
  have hj' : j < 480 := hj
  have h4 : NETWORK_BUFFER_LENGTH_SAMPLES_STEREO / 4 = 120 := rfl
  unfold stereoAccumulate
  rw [stereoAccumulate_upTo, h4, if_pos (by omega : j < 4 * 120)]

/-! ### Identity-orientation geometry lemmas -/

theorem Quat.inv_identity : Quat.inv ⟨1, 0, 0, 0⟩ = ⟨1, 0, 0, 0⟩ := by
  unfold Quat.inv
  dsimp only
  simp only [Quat.mk.injEq]
  norm_num

theorem Quat.rot_identity (v : Vec3) : Quat.rot ⟨1, 0, 0, 0⟩ v = v := by
  unfold Quat.rot Vec3.cross Vec3.add Vec3.smul
  dsimp only
  cases v
  simp only [Vec3.mk.injEq]
  norm_num

/-! ### A concrete on-axis geometry, 2.5 meters ahead

The source sits at the origin facing -z with identity orientation; the listener
sits 2.5 meters behind the source on the z axis.  The relative position
(source minus listener) is (0, 0, -2.5), the delivery angle is 0, and the
distance coefficient is exactly 0.3. -/

/-- An example source at the origin: mono or stereo according to the flag,
identity orientation, trailing loudness 1, constant samples of 10000. -/
noncomputable def exBuf (stereo : Bool) : PABuffer :=
  { bufId := 1, position := ⟨0, 0, 0⟩, orientation := ⟨1, 0, 0, 0⟩,
    nextOutputTrailingLoudness := 1, listenerUnattenuatedZone := none,
    isInjector := false, radius := 0, attenuationRatio := 1, isStereo := stereo,
    shouldLoopback := false, willBeAddedToMix := true,
    samples := fun _ => 10000, sampleCapacity := 2400, nextOutputPos := 0 }

/-- The example listener buffer, 2.5 meters behind the source. -/
noncomputable def exListener : PABuffer :=
  { bufId := 0, position := ⟨0, 0, 2.5⟩, orientation := ⟨1, 0, 0, 0⟩,
    nextOutputTrailingLoudness := 1, listenerUnattenuatedZone := none,
    isInjector := false, radius := 0, attenuationRatio := 1, isStereo := false,
    shouldLoopback := false, willBeAddedToMix := true,
    samples := fun _ => 0, sampleCapacity := 2400, nextOutputPos := 0 }

theorem exBuf_sub (st : Bool) :
    Vec3.sub (exBuf st).position exListener.position = ⟨0, 0, -2.5⟩ := by
  show Vec3.sub ⟨0, 0, 0⟩ ⟨0, 0, 2.5⟩ = ⟨0, 0, -2.5⟩
  unfold Vec3.sub
  simp only [Vec3.mk.injEq]
  norm_num

theorem exBuf_dot : Vec3.dot (⟨0, 0, -2.5⟩ : Vec3) ⟨0, 0, -2.5⟩ = (6.25 : ℝ) := by
  unfold Vec3.dot
  norm_num

theorem exBuf_len : Vec3.length (⟨0, 0, -2.5⟩ : Vec3) = (2.5 : ℝ) := by
  unfold Vec3.length
  rw [exBuf_dot, show (6.25 : ℝ) = 2.5 ^ 2 by norm_num]
  exact Real.sqrt_sq (by norm_num)

theorem exBuf_normalize : Vec3.normalize (⟨0, 0, -2.5⟩ : Vec3) = ⟨0, 0, -1⟩ := by
  unfold Vec3.normalize
  rw [exBuf_len]
  unfold Vec3.smul
  simp only [Vec3.mk.injEq]
  norm_num

theorem glmAngle_on_axis : glmAngle ⟨0, 0, -1⟩ ⟨0, 0, -1⟩ = 0 := by
  unfold glmAngle
  rw [show Vec3.dot (⟨0, 0, -1⟩ : Vec3) ⟨0, 0, -1⟩ = (1 : ℝ) by unfold Vec3.dot; norm_num]
  exact Real.arccos_one

theorem exBuf_angleOfDelivery (st : Bool) : angleOfDelivery (exBuf st) exListener = 0 := by
  unfold angleOfDelivery
  dsimp only
  rw [show (exBuf st).orientation = ⟨1, 0, 0, 0⟩ from rfl, Quat.inv_identity,
    exBuf_sub, Quat.rot_identity, exBuf_normalize]
  exact glmAngle_on_axis

theorem exBuf_bearingAngle (st : Bool) : bearingAngle (exBuf st) exListener = 0 := by
  unfold bearingAngle
  dsimp only
  rw [show exListener.orientation = ⟨1, 0, 0, 0⟩ from rfl, Quat.inv_identity,
    exBuf_sub, Quat.rot_identity]
  show glmOrientedAngle ⟨0, 0, -1⟩ (Vec3.normalize ⟨0, 0, -2.5⟩) ⟨0, 1, 0⟩ = 0
  rw [exBuf_normalize]
  unfold glmOrientedAngle
  rw [if_neg]
  · exact glmAngle_on_axis
  · rw [show Vec3.cross (⟨0, 0, -1⟩ : Vec3) ⟨0, 0, -1⟩ = ⟨0, 0, 0⟩ by
      unfold Vec3.cross; simp only [Vec3.mk.injEq]; norm_num]
    rw [show Vec3.dot (⟨0, 1, 0⟩ : Vec3) ⟨0, 0, 0⟩ = (0 : ℝ) by unfold Vec3.dot; norm_num]
    exact lt_irrefl 0

theorem offAxisCoefficient_zero : offAxisCoefficient 0 = 1 / 5 := by
  unfold offAxisCoefficient MAX_OFF_AXIS_ATTENUATION OFF_AXIS_ATTENUATION_FORMULA_STEP
  rw [zero_div, mul_zero, add_zero]
  norm_num

theorem distanceCoefficientRaw_at : distanceCoefficientRaw 6.25 = 3 / 10 := by
  have hlpos : (0 : ℝ) < Real.log 2.5 := Real.log_pos (by norm_num)
  have hlog : Real.log (6.25 : ℝ) = 2 * Real.log 2.5 := by
    rw [show (6.25 : ℝ) = 2.5 ^ (2 : ℕ) by norm_num, Real.log_pow]
    push_cast
    ring
  unfold distanceCoefficientRaw DISTANCE_SCALE_LOG GEOMETRIC_AMPLITUDE_SCALAR
    DISTANCE_SCALE DISTANCE_LOG_BASE
  rw [hlog]
  have hexp : Real.log 2.5 / Real.log 2.5 +
      0.5 * (2 * Real.log 2.5) / Real.log 2.5 - 1 = 1 := by
    rw [div_self (ne_of_gt hlpos), show (0.5 : ℝ) * (2 * Real.log 2.5) = Real.log 2.5 by ring,
      div_self (ne_of_gt hlpos)]
    norm_num
  rw [hexp, Real.rpow_one]
  norm_num

/-- The spatialization parameters of the on-axis example: bearing 0, attenuation
(1/5) * (3/10) = 3/50, no delay, full weak-channel ratio. -/
theorem mixParams_exBuf (st : Bool) :
    mixParams (exBuf st) exListener (loudnessToDistanceRatioR / 2) =
      some ⟨0, 3 / 50, 0, 1, true⟩ := by
  unfold mixParams
  dsimp only
  rw [if_pos (show (exBuf st).bufId ≠ exListener.bufId from Nat.one_ne_zero)]
  rw [exBuf_sub, exBuf_len]
  rw [if_neg (show ¬ ((2.5 : ℝ) < EPSILON) by norm_num [EPSILON])]
  rw [show (exBuf st).nextOutputTrailingLoudness = 1 from rfl]
  rw [if_neg (show ¬ ((1 : ℝ) / 2.5 ≤ loudnessToDistanceRatioR / 2) by
    norm_num [loudnessToDistanceRatioR])]
  simp only [show (exBuf st).listenerUnattenuatedZone = none from rfl]
  simp only [if_true]
  simp only [show (exBuf st).isInjector = false from rfl, Bool.false_eq_true, if_false]
  rw [exBuf_dot]
  simp only [true_or, if_true]
  simp only [if_neg (show ¬ ((0 : ℝ) > 0) by norm_num)]
  rw [exBuf_angleOfDelivery, offAxisCoefficient_zero, distanceCoefficientRaw_at,
    exBuf_bearingAngle]
  simp only [Real.sin_zero, abs_zero, mul_zero, rtrunc_zero, Int.toNat_zero, sub_zero]
  simp only [Option.some.injEq, MixParams.mk.injEq]
  norm_num

/-! ### Claim C3: stereo sources and self-loopback -/

/-- When the two buffer pointers match (the self-loopback case), lines 98-193
are skipped entirely and all spatialization parameters keep their defaults. -/
theorem mixParams_self (b l : PABuffer) (thr : ℝ) (h : b.bufId = l.bufId) :
    mixParams b l thr = some ⟨0, 1, 0, 1, false⟩ := by
  unfold mixParams
  dsimp only
  rw [if_neg (fun hne => hne h)]

/-- Accumulation dispatch once lines 91-193 produced parameters. -/
theorem addBuffer_some (b l : PABuffer) (thr : ℝ) (p : MixParams) (cs : ℕ → ℤ)
    (hp : mixParams b l thr = some p) :
    addBufferToMixForListeningNodeWithBuffer b l thr cs = accumulateWithParams b p cs := by
  unfold addBufferToMixForListeningNodeWithBuffer
  rw [hp]

/-- A source that is stereo, or whose parameters have shouldAttenuate false,
goes through the stereo/unattenuated loop. -/
theorem accumulateWithParams_stereo_branch (b : PABuffer) (p : MixParams) (cs : ℕ → ℤ)
    (hnot : ¬ (b.isStereo = false ∧ p.shouldAttenuate = true)) :
    accumulateWithParams b p cs =
      stereoAccumulate b p.shouldAttenuate p.attenuationCoefficient cs := by
  unfold accumulateWithParams
  rw [if_neg hnot]

/-- Amended claim C3: a self-loopback source or a stereo source is accumulated
through the stereo/unattenuated loop, so no inter-aural delay and no
weak-channel scaling is applied to it.  For a self-loopback source the
coefficient applied is 1 (and its parameters are the defaults: attenuation 1,
delay 0, weak-channel ratio 1).  A stereo non-self source, however, is
accumulated with the attenuation coefficient computed by lines 98-193: the
spatialization steps are bypassed for it only in the delay/weak-channel sense,
not in the attenuation sense. -/
theorem c3_stereo_or_loopback_accumulation (b l : PABuffer) (thr : ℝ) (p : MixParams)
    (hcase : b.bufId = l.bufId ∨ b.isStereo = true)
    (hp : mixParams b l thr = some p) :
    (∀ (cs : ℕ → ℤ) (j : ℕ), j < NETWORK_BUFFER_LENGTH_SAMPLES_STEREO →
      addBufferToMixForListeningNodeWithBuffer b l thr cs j =
        glmClamp (cs j + rtrunc ((nextOut b (j / stereoDivider b) : ℝ) *
          (if p.shouldAttenuate = true then p.attenuationCoefficient else 1)))
          MIN_SAMPLE_VALUE MAX_SAMPLE_VALUE) ∧
    (b.bufId = l.bufId →
      p.attenuationCoefficient = 1 ∧ p.numSamplesDelay = 0 ∧
      p.weakChannelAmplitudeRatio = 1 ∧ p.shouldAttenuate = false) := by
  have hself : b.bufId = l.bufId → p = ⟨0, 1, 0, 1, false⟩ := by
    intro h
    have hmp := mixParams_self b l thr h
    rw [hp] at hmp
    exact (Option.some_inj.mp hmp)
  have hnot : ¬ (b.isStereo = false ∧ p.shouldAttenuate = true) := by
    rcases hcase with h | h
    · intro hand
      rw [hself h] at hand
      exact Bool.false_ne_true hand.2
    · intro hand
      rw [h] at hand
      exact Bool.noConfusion hand.1
  constructor
  · intro cs j hj
    rw [addBuffer_some b l thr p cs hp, accumulateWithParams_stereo_branch b p cs hnot]
    exact stereoAccumulate_apply b p.shouldAttenuate p.attenuationCoefficient cs j hj
  · intro h
    rw [hself h]
    exact ⟨rfl, rfl, rfl, rfl⟩

/-- Witness for the amended C3, at the self-loopback instance: the source mixed
into its own listener goes through the unattenuated loop with coefficient 1. -/
theorem c3_stereo_or_loopback_accumulation_witness :
    ((exBuf false).bufId = (exBuf false).bufId ∨ (exBuf false).isStereo = true) ∧
    mixParams (exBuf false) (exBuf false) (loudnessToDistanceRatioR / 2) =
      some ⟨0, 1, 0, 1, false⟩ ∧
    addBufferToMixForListeningNodeWithBuffer (exBuf false) (exBuf false)
      (loudnessToDistanceRatioR / 2) (fun _ => 0) 0 =
      glmClamp ((0 : ℤ) + rtrunc ((nextOut (exBuf false) (0 / stereoDivider (exBuf false)) : ℝ) * 1))
        MIN_SAMPLE_VALUE MAX_SAMPLE_VALUE ∧
    ((⟨0, 1, 0, 1, false⟩ : MixParams).attenuationCoefficient = 1 ∧
      (⟨0, 1, 0, 1, false⟩ : MixParams).numSamplesDelay = 0 ∧
      (⟨0, 1, 0, 1, false⟩ : MixParams).weakChannelAmplitudeRatio = 1 ∧
      (⟨0, 1, 0, 1, false⟩ : MixParams).shouldAttenuate = false) := by
  have hp : mixParams (exBuf false) (exBuf false) (loudnessToDistanceRatioR / 2) =
      some ⟨0, 1, 0, 1, false⟩ := mixParams_self _ _ _ rfl
  have hthm := c3_stereo_or_loopback_accumulation (exBuf false) (exBuf false)
    (loudnessToDistanceRatioR / 2) ⟨0, 1, 0, 1, false⟩ (Or.inl rfl) hp
  refine ⟨Or.inl rfl, hp, ?_, hthm.2 rfl⟩
  have h1 := hthm.1 (fun _ => 0) 0 (by norm_num [NETWORK_BUFFER_LENGTH_SAMPLES_STEREO])
  simpa using h1

/-- Counterexample to C3 as stated: a stereo non-self source 2.5 meters from the
listener is accumulated with the computed attenuation 3/50, producing output
sample 600, not the 10000 that accumulation with attenuation 1 would produce. -/
theorem c3_counterexample :
    (exBuf true).isStereo = true ∧
    addBufferToMixForListeningNodeWithBuffer (exBuf true) exListener
      (loudnessToDistanceRatioR / 2) (fun _ => 0) 0 = 600 ∧
    glmClamp ((0 : ℤ) + rtrunc ((nextOut (exBuf true) (0 / stereoDivider (exBuf true)) : ℝ) * 1))
      MIN_SAMPLE_VALUE MAX_SAMPLE_VALUE = 10000 ∧
    (600 : ℤ) ≠ 10000 := by
  have hp := mixParams_exBuf true
  have hnext : nextOut (exBuf true) 0 = (10000 : ℤ) := rfl
  refine ⟨rfl, ?_, ?_, by decide⟩
  · rw [addBuffer_some (exBuf true) exListener (loudnessToDistanceRatioR / 2)
      ⟨0, 3 / 50, 0, 1, true⟩ (fun _ => 0) hp]
    rw [accumulateWithParams_stereo_branch _ _ _
      (fun hand => Bool.noConfusion hand.1)]
    rw [stereoAccumulate_apply _ _ _ _ 0 (by norm_num [NETWORK_BUFFER_LENGTH_SAMPLES_STEREO])]
    have hdiv : 0 / stereoDivider (exBuf true) = 0 := Nat.zero_div _
    rw [hdiv, hnext]
    have hval : ((10000 : ℤ) : ℝ) * (if (true : Bool) = true then (3 / 50 : ℝ) else 1) =
        ((600 : ℤ) : ℝ) := by
      rw [if_pos rfl]
      push_cast
      norm_num
    show glmClamp ((fun _ => (0 : ℤ)) 0 + rtrunc (((10000 : ℤ) : ℝ) *
      (if ((⟨0, 3 / 50, 0, 1, true⟩ : MixParams).shouldAttenuate : Bool) = true
       then (⟨0, 3 / 50, 0, 1, true⟩ : MixParams).attenuationCoefficient else 1)))
      MIN_SAMPLE_VALUE MAX_SAMPLE_VALUE = 600
    rw [show ((⟨0, 3 / 50, 0, 1, true⟩ : MixParams).shouldAttenuate : Bool) = true from rfl]
    rw [show (⟨0, 3 / 50, 0, 1, true⟩ : MixParams).attenuationCoefficient = (3 / 50 : ℝ) from rfl]
    rw [hval, rtrunc_intCast]
    norm_num [glmClamp, MIN_SAMPLE_VALUE, MAX_SAMPLE_VALUE]
  · rw [Nat.zero_div, hnext, mul_one, rtrunc_intCast]
    norm_num [glmClamp, MIN_SAMPLE_VALUE, MAX_SAMPLE_VALUE]

/-! ### Claim C4: the off-axis attenuation coefficient -/

/-- For a mono point source (not an injector, no unattenuated zone) that was not
skipped and still attenuates, the computed attenuation coefficient is the
off-axis coefficient times the clamped distance coefficient. -/
theorem mixParams_mono_point_attenuation (b l : PABuffer) (thr : ℝ) (p : MixParams)
    (hinj : b.isInjector = false)
    (hzone : b.listenerUnattenuatedZone = none)
    (hp : mixParams b l thr = some p)
    (hsa : p.shouldAttenuate = true) :
    p.attenuationCoefficient =
      offAxisCoefficient (angleOfDelivery b l) *
        min 1 (distanceCoefficientRaw
          (Vec3.dot (Vec3.sub b.position l.position) (Vec3.sub b.position l.position))) := by
  by_cases hbuf : b.bufId ≠ l.bufId
  · unfold mixParams at hp
    dsimp only at hp
    rw [if_pos hbuf] at hp
    by_cases hg : b.nextOutputTrailingLoudness /
        (if Vec3.length (Vec3.sub b.position l.position) < EPSILON then EPSILON
         else Vec3.length (Vec3.sub b.position l.position)) ≤ thr
    · rw [if_pos hg] at hp
      exact absurd hp (by simp)
    · rw [if_neg hg] at hp
      simp only [hzone] at hp
      simp only [if_true] at hp
      simp only [hinj, Bool.false_eq_true, if_false] at hp
      simp only [true_or, if_true, gt_iff_lt, lt_self_iff_false, if_false] at hp
      obtain hfin := Option.some_inj.mp hp
      rw [← hfin]
      dsimp only
      rw [one_mul]
  · rw [not_not] at hbuf
    have hmp := mixParams_self b l thr hbuf
    rw [hp] at hmp
    obtain hfin := Option.some_inj.mp hmp
    rw [hfin] at hsa
    exact absurd hsa Bool.noConfusion

/-- Counterexample to C4 as stated: at angle of delivery 0 the off-axis
coefficient equals 0.2, not the claimed 0.6. -/
theorem c4_counterexample :
    offAxisCoefficient 0 = 1 / 5 ∧ (1 / 5 : ℝ) ≠ 3 / 5 := by
  exact ⟨offAxisCoefficient_zero, by norm_num⟩

/-- Amended claim C4: the off-axis coefficient is
MAX_OFF_AXIS + ((1 - MAX_OFF_AXIS)/2) * (angle / (pi/2)) with MAX_OFF_AXIS = 0.2,
where the angle is the one computed at lines 145-148 (between (0,0,-1) and the
normalized relative position in the source's frame); its value is 0.2 at angle 0,
0.6 at angle pi/2 and 1.0 at angle pi, and for a mono point source (no injector
radius, no unattenuated zone) the computed attenuation coefficient is exactly
this off-axis coefficient times the clamped distance coefficient. -/
theorem c4_off_axis_attenuation :
    (∀ angleOfDeliveryValue : ℝ,
      offAxisCoefficient angleOfDeliveryValue =
        0.2 + ((1 - 0.2) / 2) * (angleOfDeliveryValue / (Real.pi / 2))) ∧
    offAxisCoefficient 0 = 1 / 5 ∧
    offAxisCoefficient (Real.pi / 2) = 3 / 5 ∧
    offAxisCoefficient Real.pi = 1 ∧
    (∀ (b l : PABuffer) (thr : ℝ) (p : MixParams),
      b.isInjector = false →
      b.listenerUnattenuatedZone = none →
      mixParams b l thr = some p →
      p.shouldAttenuate = true →
      p.attenuationCoefficient =
        offAxisCoefficient (angleOfDelivery b l) *
          min 1 (distanceCoefficientRaw
            (Vec3.dot (Vec3.sub b.position l.position) (Vec3.sub b.position l.position)))) := by
  have hpi2 : (Real.pi / 2 : ℝ) ≠ 0 := by positivity
  refine ⟨?_, offAxisCoefficient_zero, ?_, ?_, ?_⟩
  · intro t
    simp only [offAxisCoefficient, OFF_AXIS_ATTENUATION_FORMULA_STEP,
      MAX_OFF_AXIS_ATTENUATION, PI_OVER_TWO]
  · simp only [offAxisCoefficient, OFF_AXIS_ATTENUATION_FORMULA_STEP,
      MAX_OFF_AXIS_ATTENUATION, PI_OVER_TWO]
    rw [div_self hpi2]
    norm_num
  · simp only [offAxisCoefficient, OFF_AXIS_ATTENUATION_FORMULA_STEP,
      MAX_OFF_AXIS_ATTENUATION, PI_OVER_TWO]
    rw [show Real.pi / (Real.pi / 2) = 2 by
      rw [div_eq_iff hpi2]; ring]
    norm_num
  · exact mixParams_mono_point_attenuation

/-- Witness for the amended C4: at the on-axis example the attenuation is the
off-axis coefficient (1/5) times the clamped distance coefficient (3/10). -/
theorem c4_off_axis_attenuation_witness :
    (exBuf false).isInjector = false ∧
    (exBuf false).listenerUnattenuatedZone = none ∧
    mixParams (exBuf false) exListener (loudnessToDistanceRatioR / 2) =
      some ⟨0, 3 / 50, 0, 1, true⟩ ∧
    (⟨0, 3 / 50, 0, 1, true⟩ : MixParams).shouldAttenuate = true ∧
    (⟨0, 3 / 50, 0, 1, true⟩ : MixParams).attenuationCoefficient =
      offAxisCoefficient (angleOfDelivery (exBuf false) exListener) *
        min 1 (distanceCoefficientRaw
          (Vec3.dot (Vec3.sub (exBuf false).position exListener.position)
            (Vec3.sub (exBuf false).position exListener.position))) :=
  ⟨rfl, rfl, mixParams_exBuf false, rfl,
    c4_off_axis_attenuation.2.2.2.2 (exBuf false) exListener
      (loudnessToDistanceRatioR / 2) ⟨0, 3 / 50, 0, 1, true⟩ rfl rfl
      (mixParams_exBuf false) rfl⟩

/-! ### Claim C6: sources at (nearly) coincident positions -/

theorem Vec3.dot_self_nonneg (v : Vec3) : 0 ≤ Vec3.dot v v := by
  unfold Vec3.dot
  have hx := mul_self_nonneg v.x
  have hy := mul_self_nonneg v.y
  have hz := mul_self_nonneg v.z
  linarith

/-- For squared distances up to 1, the clamped distance coefficient is exactly 1:
the raw coefficient 0.3 ^ (nonpositive exponent) is at least 1. -/
theorem min_distanceCoefficientRaw_eq_one (d2 : ℝ) (h0 : 0 ≤ d2) (h1 : d2 ≤ 1) :
    min 1 (distanceCoefficientRaw d2) = 1 := by
  have hlpos : (0 : ℝ) < Real.log 2.5 := Real.log_pos (by norm_num)
  have hsl : DISTANCE_SCALE_LOG = 1 := by
    unfold DISTANCE_SCALE_LOG DISTANCE_SCALE DISTANCE_LOG_BASE
    exact div_self (ne_of_gt hlpos)
  have hexp : DISTANCE_SCALE_LOG + 0.5 * Real.log d2 / Real.log DISTANCE_LOG_BASE - 1 ≤ 0 := by
    rw [hsl]
    unfold DISTANCE_LOG_BASE
    have hlog : Real.log d2 ≤ 0 := Real.log_nonpos h0 h1
    have : 0.5 * Real.log d2 / Real.log 2.5 ≤ 0 := by
      apply div_nonpos_of_nonpos_of_nonneg
      · linarith
      · linarith
    linarith
  have hone : 1 ≤ distanceCoefficientRaw d2 := by
    unfold distanceCoefficientRaw GEOMETRIC_AMPLITUDE_SCALAR
    exact Real.one_le_rpow_of_pos_of_le_one_of_nonpos (by norm_num) (by norm_num) hexp
  exact min_eq_left hone

/-- A listener whose position is within EPSILON of the example source. -/
noncomputable def nearListener : PABuffer :=
  { bufId := 0, position := ⟨0, 0, 1 / 1000000⟩, orientation := ⟨1, 0, 0, 0⟩,
    nextOutputTrailingLoudness := 1, listenerUnattenuatedZone := none,
    isInjector := false, radius := 0, attenuationRatio := 1, isStereo := false,
    shouldLoopback := false, willBeAddedToMix := true,
    samples := fun _ => 0, sampleCapacity := 2400, nextOutputPos := 0 }

theorem nearBuf_sub (st : Bool) :
    Vec3.sub (exBuf st).position nearListener.position = ⟨0, 0, -(1 / 1000000)⟩ := by
  show Vec3.sub ⟨0, 0, 0⟩ ⟨0, 0, 1 / 1000000⟩ = ⟨0, 0, -(1 / 1000000)⟩
  unfold Vec3.sub
  simp only [Vec3.mk.injEq]
  norm_num

theorem nearBuf_dot :
    Vec3.dot (⟨0, 0, -(1 / 1000000)⟩ : Vec3) ⟨0, 0, -(1 / 1000000)⟩ =
      (1 / 1000000000000 : ℝ) := by
  unfold Vec3.dot
  norm_num

theorem nearBuf_len : Vec3.length (⟨0, 0, -(1 / 1000000)⟩ : Vec3) = (1 / 1000000 : ℝ) := by
  unfold Vec3.length
  rw [nearBuf_dot, show (1 / 1000000000000 : ℝ) = (1 / 1000000) ^ 2 by norm_num]
  exact Real.sqrt_sq (by norm_num)

theorem nearBuf_normalize :
    Vec3.normalize (⟨0, 0, -(1 / 1000000)⟩ : Vec3) = ⟨0, 0, -1⟩ := by
  unfold Vec3.normalize
  rw [nearBuf_len]
  unfold Vec3.smul
  simp only [Vec3.mk.injEq]
  norm_num

theorem nearBuf_angleOfDelivery (st : Bool) : angleOfDelivery (exBuf st) nearListener = 0 := by
  unfold angleOfDelivery
  dsimp only
  rw [show (exBuf st).orientation = ⟨1, 0, 0, 0⟩ from rfl, Quat.inv_identity,
    nearBuf_sub, Quat.rot_identity, nearBuf_normalize]
  exact glmAngle_on_axis

theorem nearBuf_bearingAngle (st : Bool) : bearingAngle (exBuf st) nearListener = 0 := by
  unfold bearingAngle
  dsimp only
  rw [show nearListener.orientation = ⟨1, 0, 0, 0⟩ from rfl, Quat.inv_identity,
    nearBuf_sub, Quat.rot_identity]
  show glmOrientedAngle ⟨0, 0, -1⟩ (Vec3.normalize ⟨0, 0, -(1 / 1000000)⟩) ⟨0, 1, 0⟩ = 0
  rw [nearBuf_normalize]
  unfold glmOrientedAngle
  rw [if_neg]
  · exact glmAngle_on_axis
  · rw [show Vec3.cross (⟨0, 0, -1⟩ : Vec3) ⟨0, 0, -1⟩ = ⟨0, 0, 0⟩ by
      unfold Vec3.cross; simp only [Vec3.mk.injEq]; norm_num]
    rw [show Vec3.dot (⟨0, 1, 0⟩ : Vec3) ⟨0, 0, 0⟩ = (0 : ℝ) by unfold Vec3.dot; norm_num]
    exact lt_irrefl 0

/-- The spatialization parameters when the listener is within EPSILON of the
example source: the distance coefficient clamps to 1, so the attenuation equals
the on-axis off-axis coefficient 1/5 alone. -/
theorem mixParams_nearBuf (st : Bool) :
    mixParams (exBuf st) nearListener (loudnessToDistanceRatioR / 2) =
      some ⟨0, 1 / 5, 0, 1, true⟩ := by
  unfold mixParams
  dsimp only
  rw [if_pos (show (exBuf st).bufId ≠ nearListener.bufId from Nat.one_ne_zero)]
  rw [nearBuf_sub, nearBuf_len]
  rw [if_neg (show ¬ ((1 / 1000000 : ℝ) < EPSILON) by norm_num [EPSILON])]
  rw [show (exBuf st).nextOutputTrailingLoudness = 1 from rfl]
  rw [if_neg (show ¬ ((1 : ℝ) / (1 / 1000000) ≤ loudnessToDistanceRatioR / 2) by
    norm_num [loudnessToDistanceRatioR])]
  simp only [show (exBuf st).listenerUnattenuatedZone = none from rfl]
  simp only [if_true]
  simp only [show (exBuf st).isInjector = false from rfl, Bool.false_eq_true, if_false]
  rw [nearBuf_dot]
  simp only [true_or, if_true]
  simp only [if_neg (show ¬ ((0 : ℝ) > 0) by norm_num)]
  rw [nearBuf_angleOfDelivery, offAxisCoefficient_zero,
    min_distanceCoefficientRaw_eq_one (1 / 1000000000000) (by norm_num) (by norm_num),
    nearBuf_bearingAngle]
  simp only [Real.sin_zero, abs_zero, mul_zero, rtrunc_zero, Int.toNat_zero, sub_zero]
  simp only [Option.some.injEq, MixParams.mk.injEq]
  norm_num

/-- Counterexample to C6 as stated: a mono point source at distance exactly
EPSILON from the listener (straight ahead of it) passes the gate and receives
final attenuation 1/5, not 1 -- the distance coefficient clamps to 1, but the
off-axis factor still applies. -/
theorem c6_counterexample :
    Vec3.length (Vec3.sub (exBuf false).position nearListener.position) ≤ EPSILON ∧
    mixParams (exBuf false) nearListener (loudnessToDistanceRatioR / 2) =
      some ⟨0, 1 / 5, 0, 1, true⟩ ∧
    (⟨0, 1 / 5, 0, 1, true⟩ : MixParams).attenuationCoefficient ≠ 1 := by
  refine ⟨?_, mixParams_nearBuf false, ?_⟩
  · rw [nearBuf_sub false, nearBuf_len]
    norm_num [EPSILON]
  · show (1 / 5 : ℝ) ≠ 1
    norm_num

/-- Amended claim C6: for a mono point source within unit distance of the
listener (so in particular at distance at most EPSILON) that passes the gate
and attenuates, the distance coefficient clamps to 1 and the final attenuation
equals the off-axis coefficient of the delivery angle; it is 0.2 for an on-axis
source and equals 1 only for a fully off-axis one, not in general. -/
theorem c6_near_source_attenuation (b l : PABuffer) (thr : ℝ) (p : MixParams)
    (hinj : b.isInjector = false)
    (hzone : b.listenerUnattenuatedZone = none)
    (hp : mixParams b l thr = some p)
    (hsa : p.shouldAttenuate = true)
    (hd1 : Vec3.dot (Vec3.sub b.position l.position) (Vec3.sub b.position l.position) ≤ 1) :
    p.attenuationCoefficient = offAxisCoefficient (angleOfDelivery b l) := by
  rw [mixParams_mono_point_attenuation b l thr p hinj hzone hp hsa,
    min_distanceCoefficientRaw_eq_one _ (Vec3.dot_self_nonneg _) hd1, mul_one]

/-- Witness for the amended C6, at the distance-EPSILON example. -/
theorem c6_near_source_attenuation_witness :
    (exBuf false).isInjector = false ∧
    (exBuf false).listenerUnattenuatedZone = none ∧
    mixParams (exBuf false) nearListener (loudnessToDistanceRatioR / 2) =
      some ⟨0, 1 / 5, 0, 1, true⟩ ∧
    (⟨0, 1 / 5, 0, 1, true⟩ : MixParams).shouldAttenuate = true ∧
    Vec3.dot (Vec3.sub (exBuf false).position nearListener.position)
      (Vec3.sub (exBuf false).position nearListener.position) ≤ 1 ∧
    (⟨0, 1 / 5, 0, 1, true⟩ : MixParams).attenuationCoefficient =
      offAxisCoefficient (angleOfDelivery (exBuf false) nearListener) := by
  have hd : Vec3.dot (Vec3.sub (exBuf false).position nearListener.position)
      (Vec3.sub (exBuf false).position nearListener.position) ≤ 1 := by
    rw [nearBuf_sub false, nearBuf_dot]
    norm_num
  exact ⟨rfl, rfl, mixParams_nearBuf false, rfl, hd,
    c6_near_source_attenuation (exBuf false) nearListener (loudnessToDistanceRatioR / 2)
      ⟨0, 1 / 5, 0, 1, true⟩ rfl rfl (mixParams_nearBuf false) rfl hd⟩

/-! ### Claim C5: the delay window -/

theorem monoDelayStep_apply (b : PABuffer) (aw : ℝ) (dOff dstart : ℕ)
    (cs : ℕ → ℤ) (i j : ℕ) :
    monoDelayStep b aw dOff dstart cs i j =
      if j = i * 2 + dOff then
        adds_pi16 (cs (i * 2 + dOff)) (rtrunc ((b.samples (dstart + i) : ℝ) * aw))
      else cs j := by
  unfold monoDelayStep upd
  dsimp only

/-- Client indices that are not delayed-channel slots of any processed sample
are untouched by the delay loop. -/
theorem monoDelay_untouched (b : PABuffer) (aw : ℝ) (dOff dstart : ℕ) :
    ∀ (n : ℕ) (cs : ℕ → ℤ) (j : ℕ), (∀ i, i < n → j ≠ i * 2 + dOff) →
      ((List.range n).foldl (monoDelayStep b aw dOff dstart) cs) j = cs j := by
  intro n
  induction n with
  | zero => intro cs j _; simp
  | succ n ih =>
    intro cs j hj
    rw [List.range_succ, List.foldl_append, List.foldl_cons, List.foldl_nil,
      monoDelayStep_apply, if_neg (hj n (by omega))]
    exact ih cs j (fun i hi => hj i (by omega))

/-- The value the delay loop leaves at the delayed-channel slot of sample i:
one saturating add of the i-th window sample, scaled by the combined
attenuation-and-weak-channel ratio. -/
theorem monoDelay_val (b : PABuffer) (aw : ℝ) (dOff dstart : ℕ) :
    ∀ (n : ℕ) (cs : ℕ → ℤ) (i : ℕ), i < n →
      ((List.range n).foldl (monoDelayStep b aw dOff dstart) cs) (i * 2 + dOff) =
        adds_pi16 (cs (i * 2 + dOff)) (rtrunc ((b.samples (dstart + i) : ℝ) * aw)) := by
  intro n
  induction n with
  | zero => intro cs i hi; omega
  | succ n ih =>
    intro cs i hi
    rw [List.range_succ, List.foldl_append, List.foldl_cons, List.foldl_nil,
      monoDelayStep_apply]
    by_cases hieq : i = n
    · rw [hieq]
      rw [if_pos rfl]
      rw [monoDelay_untouched b aw dOff dstart n cs (n * 2 + dOff)
        (fun i' hi' => by omega)]
    · rw [if_neg (by omega : ¬ (i * 2 + dOff = n * 2 + dOff))]
      exact ih cs i (by omega)

/-- The window start of lines 253-256 reads, for frame-aligned read positions
(the wrap case arises only at position 0), exactly the samples circularly
preceding the next-output frame. -/
theorem delayStartIndex_circular (b : PABuffer) (nd : ℕ)
    (hcap : nd ≤ b.sampleCapacity) (hpos : b.nextOutputPos < b.sampleCapacity)
    (haligned : b.nextOutputPos = 0 ∨ nd ≤ b.nextOutputPos) (i : ℕ) (hi : i < nd) :
    delayStartIndex b nd + i =
      (b.nextOutputPos + b.sampleCapacity - nd + i) % b.sampleCapacity := by
  unfold delayStartIndex
  rcases haligned with h0 | hge
  · rw [h0]
    rw [if_pos (show 0 < nd by omega)]
    rw [Nat.mod_eq_of_lt (by omega : 0 + b.sampleCapacity - nd + i < b.sampleCapacity)]
    omega
  · rw [if_neg (by omega : ¬ b.nextOutputPos < nd)]
    rw [show b.nextOutputPos + b.sampleCapacity - nd + i =
        b.sampleCapacity + (b.nextOutputPos - nd + i) by omega]
    rw [Nat.add_mod_left]
    rw [Nat.mod_eq_of_lt (by omega : b.nextOutputPos - nd + i < b.sampleCapacity)]

/-- Claim C5: for a mono source mixed with numSamplesDelay = nd > 0, the nd
delayed-channel samples prepended at the start of the output frame (client
indices i * 2 + delayedChannelOffset for i < nd) are taken from exactly the nd
samples immediately preceding the buffer's next-output frame in circular order,
wrapping from the start of the underlying array to its end when the read
position is nearer than nd to the array start.  Read positions advance by whole
frames, so a read position below nd is position 0 exactly; the frame-alignment
hypothesis records this. -/
theorem c5_delay_window_circular (b : PABuffer) (a w : ℝ) (nd dOff : ℕ) (cs : ℕ → ℤ)
    (hnd : 0 < nd)
    (hcap : nd ≤ b.sampleCapacity)
    (hpos : b.nextOutputPos < b.sampleCapacity)
    (haligned : b.nextOutputPos = 0 ∨ nd ≤ b.nextOutputPos) :
    ∀ i, i < nd →
      monoDelayAccumulate b a w nd dOff cs (i * 2 + dOff) =
        adds_pi16 (cs (i * 2 + dOff))
          (rtrunc ((b.samples ((b.nextOutputPos + b.sampleCapacity - nd + i) %
              b.sampleCapacity) : ℝ) * (a * w))) := by
  intro i hi
  unfold monoDelayAccumulate
  rw [monoDelay_val b (a * w) dOff (delayStartIndex b nd) nd cs i hi,
    delayStartIndex_circular b nd hcap hpos haligned i hi]

/-- A concrete ring buffer for the delay-window witness: capacity 8, read
position 4, each sample equal to its own array index. -/
noncomputable def delayBuf : PABuffer :=
  { bufId := 3, position := ⟨0, 0, 0⟩, orientation := ⟨1, 0, 0, 0⟩,
    nextOutputTrailingLoudness := 1, listenerUnattenuatedZone := none,
    isInjector := false, radius := 0, attenuationRatio := 1, isStereo := false,
    shouldLoopback := false, willBeAddedToMix := true,
    samples := fun i => (i : ℤ), sampleCapacity := 8, nextOutputPos := 4 }

/-- Witness for C5: with delay 2 at read position 4 of capacity 8, delayed
sample 0 comes from circular position (4 + 8 - 2) % 8 = 2. -/
theorem c5_delay_window_circular_witness :
    0 < 2 ∧ 2 ≤ delayBuf.sampleCapacity ∧
    delayBuf.nextOutputPos < delayBuf.sampleCapacity ∧
    (delayBuf.nextOutputPos = 0 ∨ 2 ≤ delayBuf.nextOutputPos) ∧ 0 < 2 ∧
    monoDelayAccumulate delayBuf 1 1 2 0 (fun _ => 0) (0 * 2 + 0) =
      adds_pi16 ((fun _ => (0 : ℤ)) (0 * 2 + 0))
        (rtrunc ((delayBuf.samples ((delayBuf.nextOutputPos + delayBuf.sampleCapacity - 2 + 0) %
            delayBuf.sampleCapacity) : ℝ) * (1 * 1))) := by
  refine ⟨by decide, by decide, by decide, Or.inr (by decide), by decide, ?_⟩
  exact c5_delay_window_circular delayBuf 1 1 2 0 (fun _ => 0) (by decide) (by decide)
    (by decide) (Or.inr (by decide)) 0 (by decide)

/-! ### Claim C1: the output block stays in the signed 16-bit range -/

/-- Every sample of a client block lies in the signed 16-bit range. -/
def allSamplesInRange (cs : ℕ → ℤ) : Prop :=
  ∀ i, MIN_SAMPLE_VALUE ≤ cs i ∧ cs i ≤ MAX_SAMPLE_VALUE

theorem glmClamp_range (v : ℤ) :
    MIN_SAMPLE_VALUE ≤ glmClamp v MIN_SAMPLE_VALUE MAX_SAMPLE_VALUE ∧
      glmClamp v MIN_SAMPLE_VALUE MAX_SAMPLE_VALUE ≤ MAX_SAMPLE_VALUE := by
  unfold glmClamp MIN_SAMPLE_VALUE MAX_SAMPLE_VALUE
  omega

theorem adds_pi16_range (a b : ℤ) :
    MIN_SAMPLE_VALUE ≤ adds_pi16 a b ∧ adds_pi16 a b ≤ MAX_SAMPLE_VALUE :=
  glmClamp_range (a + b)

theorem upd_range (cs : ℕ → ℤ) (i : ℕ) (v : ℤ)
    (hcs : allSamplesInRange cs)
    (hv : MIN_SAMPLE_VALUE ≤ v ∧ v ≤ MAX_SAMPLE_VALUE) :
    allSamplesInRange (upd cs i v) := by
  intro j
  unfold upd
  by_cases h : j = i
  · rw [if_pos h]; exact hv
  · rw [if_neg h]; exact hcs j

/-- A fold preserves any property its step preserves. -/
theorem foldl_preserves {α : Type} (P : (ℕ → ℤ) → Prop) (f : (ℕ → ℤ) → α → (ℕ → ℤ))
    (hf : ∀ cs x, P cs → P (f cs x)) :
    ∀ (l : List α) (cs : ℕ → ℤ), P cs → P (List.foldl f cs l) := by
  intro l
  induction l with
  | nil => intro cs h; exact h
  | cons x xs ih => intro cs h; exact ih (f cs x) (hf cs x h)

theorem monoMainStep_range (b : PABuffer) (a w : ℝ) (nd dOff gOff : ℕ)
    (cs : ℕ → ℤ) (k : ℕ) (hcs : allSamplesInRange cs) :
    allSamplesInRange (monoMainStep b a w nd dOff gOff cs k) := by
  unfold monoMainStep
  dsimp only
  apply upd_range
  · apply upd_range
    · apply upd_range
      · exact upd_range _ _ _ hcs (adds_pi16_range _ _)
      · exact adds_pi16_range _ _
    · exact adds_pi16_range _ _
  · exact adds_pi16_range _ _

theorem monoMainAccumulate_range (b : PABuffer) (a w : ℝ) (nd dOff gOff : ℕ)
    (cs : ℕ → ℤ) (hcs : allSamplesInRange cs) :
    allSamplesInRange (monoMainAccumulate b a w nd dOff gOff cs) :=
  foldl_preserves allSamplesInRange _
    (fun cs k h => monoMainStep_range b a w nd dOff gOff cs k h) _ cs hcs

theorem monoDelayAccumulate_range (b : PABuffer) (a w : ℝ) (nd dOff : ℕ)
    (cs : ℕ → ℤ) (hcs : allSamplesInRange cs) :
    allSamplesInRange (monoDelayAccumulate b a w nd dOff cs) := by
  unfold monoDelayAccumulate
  apply foldl_preserves allSamplesInRange _ _ _ cs hcs
  intro cs' i h
  unfold monoDelayStep
  dsimp only
  exact upd_range _ _ _ h (adds_pi16_range _ _)

theorem stereoStep_range (b : PABuffer) (sa : Bool) (a : ℝ) (cs : ℕ → ℤ) (k : ℕ)
    (hcs : allSamplesInRange cs) :
    allSamplesInRange (stereoStep b sa a cs k) := by
  unfold stereoStep
  dsimp only
  apply upd_range
  · apply upd_range
    · apply upd_range
      · exact upd_range _ _ _ hcs (glmClamp_range _)
      · exact glmClamp_range _
    · exact glmClamp_range _
  · exact glmClamp_range _

theorem stereoAccumulate_range (b : PABuffer) (sa : Bool) (a : ℝ)
    (cs : ℕ → ℤ) (hcs : allSamplesInRange cs) :
    allSamplesInRange (stereoAccumulate b sa a cs) :=
  foldl_preserves allSamplesInRange _
    (fun cs k h => stereoStep_range b sa a cs k h) _ cs hcs

theorem accumulateWithParams_range (b : PABuffer) (p : MixParams)
    (cs : ℕ → ℤ) (hcs : allSamplesInRange cs) :
    allSamplesInRange (accumulateWithParams b p cs) := by
  unfold accumulateWithParams
  dsimp only
  split
  · split
    · exact monoDelayAccumulate_range _ _ _ _ _ _
        (monoMainAccumulate_range _ _ _ _ _ _ _ hcs)
    · exact monoMainAccumulate_range _ _ _ _ _ _ _ hcs
  · exact stereoAccumulate_range _ _ _ _ hcs

theorem addBufferToMix_range (b l : PABuffer) (thr : ℝ)
    (cs : ℕ → ℤ) (hcs : allSamplesInRange cs) :
    allSamplesInRange (addBufferToMixForListeningNodeWithBuffer b l thr cs) := by
  unfold addBufferToMixForListeningNodeWithBuffer
  cases hmp : mixParams b l thr with
  | none => exact hcs
  | some p => exact accumulateWithParams_range b p cs hcs

/-- Claim C1: for every listener and every frame, after accumulating every
eligible source into the listener's output block, every sample of the block
lies in [-32768, 32767]: the mono spatialized branch accumulates with
saturating 16-bit adds (adds_pi16) and the stereo/unattenuated branch with a
widened add followed by a clamp (glmClamp), both of which force the range
regardless of the values added, given the precondition that every source's
attenuation factors lie in [0, 1] (which also keeps the intermediate int16_t
conversions of lines 215-221 in range). -/
theorem c1_output_in_sample_range (nodes : List NodeRec) (node : NodeRec) (thr : ℝ)
    (hratio : ∀ n ∈ nodes, ∀ b ∈ n.buffers,
      0 ≤ b.attenuationRatio ∧ b.attenuationRatio ≤ 1) :
    ∀ i, i < NETWORK_BUFFER_LENGTH_SAMPLES_STEREO →
      MIN_SAMPLE_VALUE ≤ prepareMixForListeningNode nodes node thr i ∧
        prepareMixForListeningNode nodes node thr i ≤ MAX_SAMPLE_VALUE := by
  have hall : allSamplesInRange (prepareMixForListeningNode nodes node thr) := by
    unfold prepareMixForListeningNode
    dsimp only
    apply foldl_preserves allSamplesInRange _ _ _ _
    · intro i
      constructor
      · norm_num [MIN_SAMPLE_VALUE]
      · norm_num [MAX_SAMPLE_VALUE]
    · intro cs otherNode h
      apply foldl_preserves allSamplesInRange _ _ _ cs h
      intro cs' buf h'
      split
      · exact addBufferToMix_range _ _ _ _ h'
      · exact h'
  exact fun i _ => hall i

/-- The node record used by the block-range and noninterference witnesses. -/
noncomputable def exNode : NodeRec := ⟨0, [exBuf false], exBuf false⟩

/-- Witness for C1: a single node whose only buffer has attenuation ratio 1. -/
theorem c1_output_in_sample_range_witness :
    (∀ n ∈ [exNode], ∀ b ∈ n.buffers,
      0 ≤ b.attenuationRatio ∧ b.attenuationRatio ≤ 1) ∧
    (∀ i, i < NETWORK_BUFFER_LENGTH_SAMPLES_STEREO →
      MIN_SAMPLE_VALUE ≤ prepareMixForListeningNode [exNode] exNode
          (loudnessToDistanceRatioR / 2) i ∧
        prepareMixForListeningNode [exNode] exNode (loudnessToDistanceRatioR / 2) i ≤
          MAX_SAMPLE_VALUE) := by
  have hratio : ∀ n ∈ [exNode], ∀ b ∈ n.buffers,
      0 ≤ b.attenuationRatio ∧ b.attenuationRatio ≤ 1 := by
    intro n hn b hb
    rw [List.mem_singleton] at hn
    subst hn
    have : b = exBuf false := by
      simpa [exNode] using hb
    subst this
    constructor
    · norm_num [exBuf]
    · norm_num [exBuf]
  exact ⟨hratio, c1_output_in_sample_range [exNode] exNode
    (loudnessToDistanceRatioR / 2) hratio⟩

/-! ### Claim C7: noninterference of a non-loopback self source -/

/-- Replace the sample array of a buffer (everything else unchanged). -/
noncomputable def setSamples (b : PABuffer) (f : ℕ → ℤ) : PABuffer :=
  { b with samples := f }

/-- Replace the sample array of exactly the buffer with the given identity. -/
noncomputable def replaceBufSamples (avId : ℕ) (f : ℕ → ℤ) (b : PABuffer) : PABuffer :=
  if b.bufId = avId then setSamples b f else b

/-- Replace the sample array of the identified buffer throughout a node. -/
noncomputable def replaceNodeSamples (avId : ℕ) (f : ℕ → ℤ) (n : NodeRec) : NodeRec :=
  ⟨n.nodeId, n.buffers.map (replaceBufSamples avId f), replaceBufSamples avId f n.avatarBuffer⟩

theorem replaceBufSamples_shouldLoopback (avId : ℕ) (f : ℕ → ℤ) (b : PABuffer) :
    (replaceBufSamples avId f b).shouldLoopback = b.shouldLoopback := by
  unfold replaceBufSamples setSamples
  split <;> rfl

theorem replaceBufSamples_willBeAddedToMix (avId : ℕ) (f : ℕ → ℤ) (b : PABuffer) :
    (replaceBufSamples avId f b).willBeAddedToMix = b.willBeAddedToMix := by
  unfold replaceBufSamples setSamples
  split <;> rfl

theorem replaceBufSamples_loudness (avId : ℕ) (f : ℕ → ℤ) (b : PABuffer) :
    (replaceBufSamples avId f b).nextOutputTrailingLoudness =
      b.nextOutputTrailingLoudness := by
  unfold replaceBufSamples setSamples
  split <;> rfl

theorem replaceBufSamples_of_ne (avId : ℕ) (f : ℕ → ℤ) (b : PABuffer)
    (h : ¬ b.bufId = avId) : replaceBufSamples avId f b = b := by
  unfold replaceBufSamples
  rw [if_neg h]

/-- The mixing routine never reads the listening buffer's sample array: only
its identity, position and orientation enter lines 91-193, and the accumulation
reads samples of the source buffer alone. -/
theorem addBuffer_listener_samples_irrelevant (b l : PABuffer) (f : ℕ → ℤ)
    (thr : ℝ) (cs : ℕ → ℤ) :
    addBufferToMixForListeningNodeWithBuffer b (setSamples l f) thr cs =
      addBufferToMixForListeningNodeWithBuffer b l thr cs := rfl

/-- Claim C7: if the listener's own source has shouldLoopback = false, the
listener's mixed output block does not depend on that source's sample array
(two-run noninterference).  The uniqueness hypothesis reflects pointer identity:
any list entry carrying the avatar buffer's identity belongs to the listener's
own node and, like the avatar buffer itself, does not loop back. -/
theorem c7_no_self_mix_noninterference (nodes : List NodeRec) (node : NodeRec)
    (thr : ℝ) (f : ℕ → ℤ)
    (hlb : node.avatarBuffer.shouldLoopback = false)
    (huniq : ∀ n ∈ nodes, ∀ b ∈ n.buffers, b.bufId = node.avatarBuffer.bufId →
      n.nodeId = node.nodeId ∧ b.shouldLoopback = false) :
    prepareMixForListeningNode (nodes.map (replaceNodeSamples node.avatarBuffer.bufId f))
        (replaceNodeSamples node.avatarBuffer.bufId f node) thr =
      prepareMixForListeningNode nodes node thr := by
  have hav : (replaceNodeSamples node.avatarBuffer.bufId f node).avatarBuffer =
      setSamples node.avatarBuffer f := by
    unfold replaceNodeSamples replaceBufSamples
    dsimp only
    rw [if_pos rfl]
  have hnid : (replaceNodeSamples node.avatarBuffer.bufId f node).nodeId = node.nodeId := rfl
  unfold prepareMixForListeningNode
  dsimp only
  simp only [hav, hnid]
  rw [List.foldl_map]
  apply List.foldl_ext
  intro cs n hn
  show (replaceNodeSamples node.avatarBuffer.bufId f n).buffers.foldl _ cs =
    n.buffers.foldl _ cs
  have hbufs : (replaceNodeSamples node.avatarBuffer.bufId f n).buffers =
      n.buffers.map (replaceBufSamples node.avatarBuffer.bufId f) := rfl
  have hnid2 : (replaceNodeSamples node.avatarBuffer.bufId f n).nodeId = n.nodeId := rfl
  rw [hbufs, List.foldl_map]
  simp only [hnid2]
  apply List.foldl_ext
  intro cs' b hb
  simp only [replaceBufSamples_shouldLoopback, replaceBufSamples_willBeAddedToMix,
    replaceBufSamples_loudness]
  by_cases hbid : b.bufId = node.avatarBuffer.bufId
  · obtain ⟨hsame, hnolb⟩ := huniq n hn b hb hbid
    rw [if_neg, if_neg]
    · intro hand
      rcases hand.1 with hne | hlbt
      · exact hne hsame
      · rw [hnolb] at hlbt
        exact Bool.noConfusion hlbt
    · intro hand
      rcases hand.1 with hne | hlbt
      · exact hne hsame
      · rw [hnolb] at hlbt
        exact Bool.noConfusion hlbt
  · rw [replaceBufSamples_of_ne _ _ _ hbid,
      addBuffer_listener_samples_irrelevant]

/-- Witness for C7: one listener whose own microphone buffer (loopback off) is
filled with +1000 samples; its mix is unchanged. -/
theorem c7_no_self_mix_noninterference_witness :
    exNode.avatarBuffer.shouldLoopback = false ∧
    (∀ n ∈ [exNode], ∀ b ∈ n.buffers, b.bufId = exNode.avatarBuffer.bufId →
      n.nodeId = exNode.nodeId ∧ b.shouldLoopback = false) ∧
    prepareMixForListeningNode
        ([exNode].map (replaceNodeSamples exNode.avatarBuffer.bufId (fun _ => 1000)))
        (replaceNodeSamples exNode.avatarBuffer.bufId (fun _ => 1000) exNode)
        (loudnessToDistanceRatioR / 2) =
      prepareMixForListeningNode [exNode] exNode (loudnessToDistanceRatioR / 2) := by
  have hlb : exNode.avatarBuffer.shouldLoopback = false := rfl
  have huniq : ∀ n ∈ [exNode], ∀ b ∈ n.buffers, b.bufId = exNode.avatarBuffer.bufId →
      n.nodeId = exNode.nodeId ∧ b.shouldLoopback = false := by
    intro n hn b hb hbid
    rw [List.mem_singleton] at hn
    subst hn
    refine ⟨rfl, ?_⟩
    have hb' : b = exBuf false := by
      simpa [exNode] using hb
    subst hb'
    rfl
  exact ⟨hlb, huniq, c7_no_self_mix_noninterference [exNode] exNode
    (loudnessToDistanceRatioR / 2) (fun _ => 1000) hlb huniq⟩
